import Mathlib

/-!
# LuaSTGPlus resource manager: a shallow embedding of `ResourceMgr.h` / `ResourceMgr.cpp`

Conventions of the embedding.

* `const char*` resource names are Lean `String`s.
* Path strings (`const wchar_t*`, `std::wstring`, the UTF-8 `std::string` and the
  `char tZipName[MAX_PATH]` buffer) are lists of code units, `List Int` (a `char` is signed,
  hence `Int`).  A C string ends at its first zero unit: `cstr`.
* `float` / `double` values are exact rationals.
* A reference-counted handle `fcyRefPointer<T>` is an `Option T`; the null handle is `none`.
  Pools only ever store handles that come straight from `new`, so the maps store the
  resource itself.
* The renderer, the archive library, the native file streams and the allocator are
  collaborators outside `ResourceMgr.*`; their outcomes are fields of `Env`.
* Memory exhaustion (`bad_alloc`) is an outcome where the source sizes a byte buffer
  (`outBuf.resize`) or builds a resource object (`new Res...` and `emplace`).  Copying or
  converting a path string and linking a list node are taken to succeed; the `bad_alloc`
  handlers of `LoadPack` and `UnloadPack` guard only those.
* Logging (`LWARNING`, `LERROR`, `LINFO`) has no effect on the state and is left out.
-/

namespace LuaSTGPlus

/-! ## Strings -/

/-- A sequence of code units (`wchar_t` or `char`). -/
abbrev CodeUnits := List Int

/-- Contents of a byte buffer (`std::vector<char>`). -/
abbrev Bytes := List Int

/-- The C string held in a buffer: the units before the first zero. -/
def cstr : CodeUnits → CodeUnits
  | [] => []
  | c :: rest => if c = 0 then [] else c :: cstr rest

/-- Code units of a Lean string literal (used to write concrete paths). -/
def units (s : String) : CodeUnits := s.toList.map (fun c => (c.toNat : Int))

/-- Template `pathUniform(begin, end)` (ResourceMgr.cpp 230-244): walks the range in place;
`'/'` (47) becomes `'\\'` (92), `'A'..'Z'` (65..90) become lower case, and the walk stops
at a zero unit, leaving the rest of the range as it is. -/
def pathUniform : CodeUnits → CodeUnits
  | [] => []
  | c :: rest =>
    if c = 47 then 92 :: pathUniform rest
    else if 65 ≤ c ∧ c ≤ 90 then (c - 65 + 97) :: pathUniform rest
    else if c = 0 then c :: rest
    else c :: pathUniform rest

/-- Test `strcmp(a, b) == 0`: the two buffers hold the same C string. -/
def strcmpEq (a b : CodeUnits) : Bool := decide (cstr a = cstr b)

/-! ## Enumerations (ResourceMgr.h 15-42) -/

/-- Enumeration `ResourceType` (values 1..8). -/
inductive ResourceType
  | Texture | Sprite | Animation | Music | SoundEffect | Particle | SpriteFont | TrueTypeFont
  deriving DecidableEq

/-- Enumeration `ResourcePoolType`. -/
inductive ResourcePoolType
  | None | Global | Stage
  deriving DecidableEq

/-- Enumeration `BlendMode`. -/
inductive BlendMode
  | AddAdd | AddAlpha | MulAdd | MulAlpha
  deriving DecidableEq

/-- The two exceptions the source catches. -/
inductive Exn
  | bad_alloc | fcyException
  deriving DecidableEq

/-! ## Renderer objects -/

/-- A renderer texture `f2dTexture2D*`: an opaque object identity. -/
abbrev f2dTexture2D := Nat

/-- Rectangle `fcyRect(x1, y1, x2, y2)`: top-left and bottom-right corner. -/
structure fcyRect where
  x1 : ℚ
  y1 : ℚ
  x2 : ℚ
  y2 : ℚ
  deriving DecidableEq

/-- A renderer sprite `f2dSprite`: the texture region it shows and the two attributes
the source sets on it (`SetZ`, `SetColor`). -/
structure f2dSprite where
  texture : f2dTexture2D
  rect : fcyRect
  z : ℚ
  color : Nat
  deriving DecidableEq

/-- Setter `f2dSprite::SetZ`. -/
def f2dSprite.SetZ (s : f2dSprite) (z : ℚ) : f2dSprite := { s with z := z }

/-- Setter `f2dSprite::SetColor`. -/
def f2dSprite.SetColor (s : f2dSprite) (c : Nat) : f2dSprite := { s with color := c }

/-! ## The archive library (minizip) as seen by `ResourcePack` -/

/-- What `unzGetCurrentFileInfo` reports for an entry: the file name copied into
`tZipName` and `tFileInfo.uncompressed_size`. -/
structure ZipInfo where
  name : CodeUnits
  uncompressed_size : Nat
  deriving DecidableEq

/-- One entry of an archive's central directory, by the outcomes of the minizip calls
made on it.  `info = none`: `unzGetCurrentFileInfo` does not return `UNZ_OK`.
`opens pw`: `unzOpenCurrentFilePassword` returns `UNZ_OK` for the password argument `pw`
(`none` is `nullptr`).  `content = none`: `unzReadCurrentFile` returns a negative value;
`some d`: it fills the output buffer with `d`. -/
structure ZipEntry where
  info : Option ZipInfo
  opens : Option CodeUnits → Bool
  content : Option Bytes

/-- An open archive `unzFile`: its central directory in stored order, as walked by
`unzGoToFirstFile` / `unzGoToNextFile`. -/
abbrev unzFile := List ZipEntry

/-! ## Collaborators -/

/-- Outcomes of the collaborators outside `ResourceMgr.*`. -/
structure Env where
  /-- Result of `fcyStringHelper::WideCharToMultiByte(path, CP_UTF8)`. -/
  WideCharToMultiByte : CodeUnits → CodeUnits
  /-- Result of `unzOpen2(path, ...)`: the archive at a native path, `none` when it cannot
  be opened. -/
  unzOpen2 : CodeUnits → Option unzFile
  /-- Whether `outBuf.resize(n)` throws `bad_alloc`. -/
  resizeFails : Nat → Bool
  /-- Whether `new fcyFileStream(path, false)` throws `fcyException` although the file
  exists (sharing violation, access rights). -/
  openReadFails : CodeUnits → Bool
  /-- Whether `fcyFileStream::ReadBytes` fails on the file at this path. -/
  readFails : CodeUnits → Bool
  /-- The exception `new fcyFileStream(target, true)` throws, if any. -/
  openWriteFails : CodeUnits → Option Exn
  /-- Whether `fcyFileStream::SetLength(0)` fails on the file at this path. -/
  setLengthFails : CodeUnits → Bool
  /-- Whether `fcyFileStream::WriteBytes` fails on the file at this path. -/
  writeFails : CodeUnits → Bool
  /-- Result of `f2dRenderDevice::CreateTextureFromMemory(data, size, 0, 0, false, mipmaps,
  &tex)`; `none` is a failure code. -/
  CreateTextureFromMemory : Bytes → Bool → Option f2dTexture2D
  /-- Whether `f2dRenderer::CreateSprite2D(tex, rect, &sprite)` succeeds. -/
  CreateSprite2D_ok : f2dTexture2D → fcyRect → Bool
  /-- Z value of a freshly created sprite. -/
  spriteInitZ : ℚ
  /-- Colour of a freshly created sprite. -/
  spriteInitColor : Nat
  /-- Whether `new Res...(name, ...)` followed by `emplace(name, ...)` throws `bad_alloc`
  for a resource of this kind and name. -/
  newFails : ResourceType → String → Bool

/-- Call `f2dRenderer::CreateSprite2D(tex, rect, &out)`: on success the new sprite shows
`rect` of `tex`. -/
def Env.CreateSprite2D (env : Env) (tex : f2dTexture2D) (rect : fcyRect) : Option f2dSprite :=
  if env.CreateSprite2D_ok tex rect then
    some { texture := tex, rect := rect, z := env.spriteInitZ, color := env.spriteInitColor }
  else none

/-- The native file system: the bytes of the file at each path, if there is one. -/
abbrev NativeFS := CodeUnits → Option Bytes

/-- Replace (or create) the file at `path`. -/
def NativeFS.put (fs : NativeFS) (path : CodeUnits) (data : Bytes) : NativeFS :=
  fun q => if q = path then some data else fs q

/-! ## Dictionary -/

/-- Modelled from the spec: `Dictionary.hpp` is not among the source files.  The source
uses `find`, `end`, `emplace`, `clear` and iteration on it, and the spec describes each
pool map as `name → Resource` with names unique per kind per pool.  It is an association
list in insertion order; `emplace` inserts only when the key is absent. -/
structure Dictionary (T : Type) where
  entries : List (String × T)
  deriving DecidableEq

/-- The empty map. -/
def Dictionary.empty {T : Type} : Dictionary T := ⟨[]⟩

/-- Lookup `find(name)`: `none` stands for `end()`, `some v` for an iterator whose
`second` is `v`. -/
def Dictionary.find {T : Type} (d : Dictionary T) (name : String) : Option T :=
  match d.entries.find? (fun e => e.1 == name) with
  | some e => some e.2
  | none => none

/-- Insertion `emplace(name, v)`: no effect when the key is already present. -/
def Dictionary.emplace {T : Type} (d : Dictionary T) (name : String) (v : T) : Dictionary T :=
  match d.find name with
  | some _ => d
  | none => ⟨d.entries ++ [(name, v)]⟩

/-- Removal of every entry, `clear()`. -/
def Dictionary.clear {T : Type} (_d : Dictionary T) : Dictionary T := ⟨[]⟩

/-! ## Resources (ResourceMgr.h 44-322) -/

/-- Class `ResTexture`. -/
structure ResTexture where
  m_ResName : String
  m_Texture : f2dTexture2D
  deriving DecidableEq

/-- Class `ResSprite`. -/
structure ResSprite where
  m_ResName : String
  m_Sprite : f2dSprite
  m_BlendMode : BlendMode
  m_HalfSizeX : ℚ
  m_HalfSizeY : ℚ
  m_bRectangle : Bool
  deriving DecidableEq

/-- Constructor `ResSprite(name, sprite, hx, hy, rect)` (ResourceMgr.h 93-97). -/
def ResSprite.create (name : String) (sprite : f2dSprite) (hx hy : ℚ) (rect : Bool) :
    ResSprite :=
  { m_ResName := name, m_Sprite := sprite.SetColor 0xFFFFFFFF, m_BlendMode := BlendMode.MulAlpha,
    m_HalfSizeX := hx, m_HalfSizeY := hy, m_bRectangle := rect }

/-- Class `ResAnimation`. -/
structure ResAnimation where
  m_ResName : String
  m_ImageSequences : List f2dSprite
  m_Interval : Nat
  m_BlendMode : BlendMode
  m_HalfSizeX : ℚ
  m_HalfSizeY : ℚ
  m_bRectangle : Bool
  deriving DecidableEq

/-- Body of the inner loop of the `ResAnimation` constructor (ResourceMgr.cpp 22-31) for
column `i` of row `j`: the new frame, or the thrown `fcyException`. -/
def ResAnimation.frame (env : Env) (tex : ResTexture) (x y sw sh : ℚ) (i j : Nat) :
    Except Exn f2dSprite :=
  match env.CreateSprite2D tex.m_Texture
      ⟨x + sw * i, y + sh * j, x + sw * (i + 1), y + sh * (j + 1)⟩ with
  | none => Except.error Exn.fcyException
  | some t => Except.ok ((t.SetZ (1 / 2)).SetColor 0xFFFFFFFF)

/-- The cells `(i, j)` in the order the two nested loops visit them: rows `j` outside,
columns `i` inside. -/
def ResAnimation.cells (n m : Int) : List (Nat × Nat) :=
  (List.range m.toNat).flatMap (fun j => (List.range n.toNat).map (fun i => (i, j)))

/-- The two nested loops: `push_back` each frame, stop at the first exception. -/
def ResAnimation.frames (env : Env) (tex : ResTexture) (x y sw sh : ℚ) :
    List (Nat × Nat) → Except Exn (List f2dSprite)
  | [] => Except.ok []
  | (i, j) :: rest =>
    match ResAnimation.frame env tex x y sw sh i j with
    | Except.error e => Except.error e
    | Except.ok t =>
      match ResAnimation.frames env tex x y sw sh rest with
      | Except.error e => Except.error e
      | Except.ok ts => Except.ok (t :: ts)

/-- Constructor `ResAnimation(name, tex, x, y, w, h, n, m, intv, a, b, rect)`
(ResourceMgr.cpp 9-34).  `sw = w / n`, `sh = w / m` as written in the source;
`m_Interval` is the `int` converted to `fuInt`. -/
def ResAnimation.create (env : Env) (name : String) (tex : ResTexture) (x y w _h : ℚ)
    (n m intv : Int) (a b : ℚ) (rect : Bool) : Except Exn ResAnimation :=
  let sw : ℚ := w / n
  let sh : ℚ := w / m
  match ResAnimation.frames env tex x y sw sh (ResAnimation.cells n m) with
  | Except.error e => Except.error e
  | Except.ok seq =>
    Except.ok { m_ResName := name, m_ImageSequences := seq,
                m_Interval := (intv % 4294967296).toNat, m_BlendMode := BlendMode.MulAlpha,
                m_HalfSizeX := a, m_HalfSizeY := b, m_bRectangle := rect }

/-- Struct `ResParticle::ParticleInfo`. -/
structure ParticleInfo where
  iBlendInfo : Nat
  nEmission : Int
  fLifetime : ℚ
  fParticleLifeMin : ℚ
  fParticleLifeMax : ℚ
  fDirection : ℚ
  fSpread : ℚ
  bRelative : Bool
  fSpeedMin : ℚ
  fSpeedMax : ℚ
  fGravityMin : ℚ
  fGravityMax : ℚ
  fRadialAccelMin : ℚ
  fRadialAccelMax : ℚ
  fTangentialAccelMin : ℚ
  fTangentialAccelMax : ℚ
  fSizeStart : ℚ
  fSizeEnd : ℚ
  fSizeVar : ℚ
  fSpinStart : ℚ
  fSpinEnd : ℚ
  fSpinVar : ℚ
  colColorStart : List ℚ
  colColorEnd : List ℚ
  fColorVar : ℚ
  fAlphaVar : ℚ
  deriving DecidableEq

/-- Class `ResParticle` (the template; its instances are `ParticlePool`). -/
structure ResParticle where
  m_ResName : String
  m_BindedSprite : f2dSprite
  m_BlendMode : BlendMode
  m_ParticleInfo : ParticleInfo
  m_HalfSizeX : ℚ
  m_HalfSizeY : ℚ
  m_bRectangle : Bool
  deriving DecidableEq

/-- Class `ResFont`; the font provider is an opaque object identity. -/
structure ResFont where
  m_ResName : String
  m_pFontProvider : Nat
  m_BlendMode : BlendMode
  m_BlendColor : Nat
  deriving DecidableEq

/-! ## ResourcePool (ResourceMgr.h 324-497) -/

/-- Class `ResourcePool`.  The back pointer `m_pMgr` is not a field: the operations that
follow it take the manager as an argument. -/
structure ResourcePool where
  m_iType : ResourcePoolType
  m_TexturePool : Dictionary ResTexture
  m_SpritePool : Dictionary ResSprite
  m_AnimationPool : Dictionary ResAnimation
  m_ParticlePool : Dictionary ResParticle
  m_SpriteFontPool : Dictionary ResFont
  m_TTFFontPool : Dictionary ResFont
  deriving DecidableEq

/-- Constructor `ResourcePool(mgr, t)`: six empty maps. -/
def ResourcePool.create (t : ResourcePoolType) : ResourcePool :=
  { m_iType := t, m_TexturePool := Dictionary.empty, m_SpritePool := Dictionary.empty,
    m_AnimationPool := Dictionary.empty, m_ParticlePool := Dictionary.empty,
    m_SpriteFontPool := Dictionary.empty, m_TTFFontPool := Dictionary.empty }

/-- Method `ResourcePool::Clear` (ResourceMgr.h 352-360). -/
def ResourcePool.Clear (self : ResourcePool) : ResourcePool :=
  { self with
    m_TexturePool := self.m_TexturePool.clear
    m_SpritePool := self.m_SpritePool.clear
    m_AnimationPool := self.m_AnimationPool.clear
    m_ParticlePool := self.m_ParticlePool.clear
    m_SpriteFontPool := self.m_SpriteFontPool.clear
    m_TTFFontPool := self.m_TTFFontPool.clear }

/-- Method `ResourcePool::GetTexture` (ResourceMgr.h 433-440). -/
def ResourcePool.GetTexture (self : ResourcePool) (name : String) : Option ResTexture :=
  match self.m_TexturePool.find name with
  | none => none
  | some r => some r

/-- Method `ResourcePool::GetSprite` (ResourceMgr.h 443-450). -/
def ResourcePool.GetSprite (self : ResourcePool) (name : String) : Option ResSprite :=
  match self.m_SpritePool.find name with
  | none => none
  | some r => some r

/-- Method `ResourcePool::GetAnimation` (ResourceMgr.h 453-460). -/
def ResourcePool.GetAnimation (self : ResourcePool) (name : String) : Option ResAnimation :=
  match self.m_AnimationPool.find name with
  | none => none
  | some r => some r

/-- Method `ResourcePool::GetParticle` (ResourceMgr.h 463-470). -/
def ResourcePool.GetParticle (self : ResourcePool) (name : String) : Option ResParticle :=
  match self.m_ParticlePool.find name with
  | none => none
  | some r => some r

/-- Method `ResourcePool::GetSpriteFont` (ResourceMgr.h 473-480). -/
def ResourcePool.GetSpriteFont (self : ResourcePool) (name : String) : Option ResFont :=
  match self.m_SpriteFontPool.find name with
  | none => none
  | some r => some r

/-- Method `ResourcePool::GetTTFFont` (ResourceMgr.h 483-490). -/
def ResourcePool.GetTTFFont (self : ResourcePool) (name : String) : Option ResFont :=
  match self.m_TTFFontPool.find name with
  | none => none
  | some r => some r

/-! ## ResourcePack (ResourceMgr.h 499-526, ResourceMgr.cpp 246-333) -/

/-- Class `ResourcePack`. -/
structure ResourcePack where
  m_Path : CodeUnits
  m_PathLowerCase : CodeUnits
  m_Password : CodeUnits
  m_zipFile : unzFile

/-- Constructor `ResourcePack(path, passwd)` (ResourceMgr.cpp 246-260): throws
`fcyException` when `unzOpen2` yields no archive. -/
def ResourcePack.create (env : Env) (path : CodeUnits) (passwd : Option CodeUnits) :
    Except Exn ResourcePack :=
  match env.unzOpen2 (cstr path) with
  | none => Except.error Exn.fcyException
  | some zip =>
    Except.ok { m_Path := cstr path
                m_PathLowerCase := pathUniform (cstr path)
                m_Password := match passwd with
                  | some pw => cstr pw
                  | none => []
                m_zipFile := zip }

/-- The directory walk of `ResourcePack::LoadFile` (ResourceMgr.cpp 281-330): the entry at
which `strcmp(tPathInUtf8, tZipName) == 0` holds first, with its file info.  An entry
whose info cannot be read is skipped. -/
def ResourcePack.locate (tPathInUtf8 : CodeUnits) : unzFile → Option (ZipEntry × ZipInfo)
  | [] => none
  | e :: rest =>
    match e.info with
    | some tFileInfo =>
      if strcmpEq tPathInUtf8 (pathUniform tFileInfo.name) then some (e, tFileInfo)
      else ResourcePack.locate tPathInUtf8 rest
    | none => ResourcePack.locate tPathInUtf8 rest

/-- The request as compared against the entry names (ResourceMgr.cpp 272-273). -/
def ResourcePack.request (env : Env) (path : CodeUnits) : CodeUnits :=
  pathUniform (env.WideCharToMultiByte (cstr path))

/-- Method `ResourcePack::LoadFile(path, outBuf)` (ResourceMgr.cpp 267-333): `some` of the
bytes left in `outBuf` when it returns true, `none` when it returns false. -/
def ResourcePack.LoadFile (env : Env) (self : ResourcePack) (path : CodeUnits) : Option Bytes :=
  match ResourcePack.locate (ResourcePack.request env path) self.m_zipFile with
  | none => none
  | some (e, tFileInfo) =>
    if e.opens (if self.m_Password.length > 0 then some self.m_Password else none) = false then
      none
    else if env.resizeFails tFileInfo.uncompressed_size then none
    else e.content

/-! ## ResourceMgr (ResourceMgr.h 528-690, ResourceMgr.cpp 338-530) -/

/-- Class `ResourceMgr`. -/
structure ResourceMgr where
  m_ResPackList : List ResourcePack
  m_GlobalImageScaleFactor : ℚ
  m_ActivedPool : ResourcePoolType
  m_GlobalResourcePool : ResourcePool
  m_StageResourcePool : ResourcePool

/-- Constructor `ResourceMgr()` with the default member initialisers. -/
def ResourceMgr.create : ResourceMgr :=
  { m_ResPackList := [], m_GlobalImageScaleFactor := 1, m_ActivedPool := ResourcePoolType.Global,
    m_GlobalResourcePool := ResourcePool.create ResourcePoolType.Global,
    m_StageResourcePool := ResourcePool.create ResourcePoolType.Stage }

/-- The loop of `LoadPack` (ResourceMgr.cpp 349-356): whether some mounted pack has the
normalized path `tPath`. -/
def ResourceMgr.mounted (tPath : CodeUnits) : List ResourcePack → Bool
  | [] => false
  | i :: rest => if i.m_PathLowerCase = tPath then true else ResourceMgr.mounted tPath rest

/-- Method `ResourceMgr::LoadPack(path, passwd)` (ResourceMgr.cpp 343-369). -/
def ResourceMgr.LoadPack (env : Env) (self : ResourceMgr) (path : CodeUnits)
    (passwd : Option CodeUnits) : Bool × ResourceMgr :=
  let tPath := pathUniform (cstr path)
  if ResourceMgr.mounted tPath self.m_ResPackList then (true, self)
  else
    match ResourcePack.create env path passwd with
    | Except.ok pack => (true, { self with m_ResPackList := pack :: self.m_ResPackList })
    | Except.error _ => (false, self)

/-- The loop of `UnloadPack` (ResourceMgr.cpp 377-385): erase the first pack whose
normalized path is `tPath`. -/
def ResourceMgr.eraseFirst (tPath : CodeUnits) : List ResourcePack → List ResourcePack
  | [] => []
  | i :: rest =>
    if i.m_PathLowerCase = tPath then rest else i :: ResourceMgr.eraseFirst tPath rest

/-- Method `ResourceMgr::UnloadPack(path)` (ResourceMgr.cpp 371-392). -/
def ResourceMgr.UnloadPack (self : ResourceMgr) (path : CodeUnits) : ResourceMgr :=
  { self with m_ResPackList := ResourceMgr.eraseFirst (pathUniform (cstr path)) self.m_ResPackList }

/-- Method `ResourceMgr::UnloadAllPack` (ResourceMgr.h 584). -/
def ResourceMgr.UnloadAllPack (self : ResourceMgr) : ResourceMgr :=
  { self with m_ResPackList := [] }

/-- The pack loop of `ResourceMgr::LoadFile` (ResourceMgr.cpp 424-428). -/
def ResourceMgr.loadFromPacks (env : Env) (path : CodeUnits) : List ResourcePack → Option Bytes
  | [] => none
  | i :: rest =>
    match i.LoadFile env path with
    | some buf => some buf
    | none => ResourceMgr.loadFromPacks env path rest

/-- The native part of `ResourceMgr::LoadFile` (ResourceMgr.cpp 434-460): open the file
for reading, size the buffer, read it when it is not empty. -/
def ResourceMgr.loadNative (env : Env) (fs : NativeFS) (path : CodeUnits) : Option Bytes :=
  match fs (cstr path) with
  | none => none
  | some data =>
    if env.openReadFails (cstr path) then none
    else if env.resizeFails data.length then none
    else if data.length > 0 then
      if env.readFails (cstr path) then none else some data
    else some []

/-- Method `ResourceMgr::LoadFile(path, outBuf)` (ResourceMgr.cpp 421-461): `some` of the
bytes left in `outBuf` when it returns true, `none` when it returns false. -/
def ResourceMgr.LoadFile (env : Env) (fs : NativeFS) (self : ResourceMgr) (path : CodeUnits) :
    Option Bytes :=
  match ResourceMgr.loadFromPacks env path self.m_ResPackList with
  | some buf => some buf
  | none => ResourceMgr.loadNative env fs path

/-- Method `ResourceMgr::ExtractRes(path, target)` (ResourceMgr.cpp 477-515): the returned
flag and the native file system afterwards.  Opening the target for writing creates it
when it does not exist; after a failed `WriteBytes` the target is left truncated. -/
def ResourceMgr.ExtractRes (env : Env) (fs : NativeFS) (self : ResourceMgr)
    (path target : CodeUnits) : Bool × NativeFS :=
  match self.LoadFile env fs path with
  | some tBuf =>
    match env.openWriteFails (cstr target) with
    | some _ => (false, fs)
    | none =>
      let opened : NativeFS :=
        match fs (cstr target) with
        | some _ => fs
        | none => fs.put (cstr target) []
      if env.setLengthFails (cstr target) then (false, opened)
      else
        let truncated := opened.put (cstr target) []
        if tBuf.length > 0 then
          if env.writeFails (cstr target) then (false, truncated)
          else (true, truncated.put (cstr target) tBuf)
        else (true, truncated)
  | none => (true, fs)

/-- Method `ResourceMgr::ClearAllResource` (ResourceMgr.h 587-593). -/
def ResourceMgr.ClearAllResource (self : ResourceMgr) : ResourceMgr :=
  { self with
    m_GlobalResourcePool := self.m_GlobalResourcePool.Clear
    m_StageResourcePool := self.m_StageResourcePool.Clear
    m_ActivedPool := ResourcePoolType.Global
    m_GlobalImageScaleFactor := 1 }

/-- Method `ResourceMgr::FindTexture` (ResourceMgr.h 625-631). -/
def ResourceMgr.FindTexture (self : ResourceMgr) (texname : String) : Option ResTexture :=
  match self.m_StageResourcePool.GetTexture texname with
  | some tRet => some tRet
  | none => self.m_GlobalResourcePool.GetTexture texname

/-- Method `ResourceMgr::FindSprite` (ResourceMgr.h 645-651). -/
def ResourceMgr.FindSprite (self : ResourceMgr) (name : String) : Option ResSprite :=
  match self.m_StageResourcePool.GetSprite name with
  | some tRet => some tRet
  | none => self.m_GlobalResourcePool.GetSprite name

/-- Method `ResourceMgr::FindAnimation` (ResourceMgr.h 654-660). -/
def ResourceMgr.FindAnimation (self : ResourceMgr) (name : String) : Option ResAnimation :=
  match self.m_StageResourcePool.GetAnimation name with
  | some tRet => some tRet
  | none => self.m_GlobalResourcePool.GetAnimation name

/-- Method `ResourceMgr::FindParticle` (ResourceMgr.h 663-669). -/
def ResourceMgr.FindParticle (self : ResourceMgr) (name : String) : Option ResParticle :=
  match self.m_StageResourcePool.GetParticle name with
  | some tRet => some tRet
  | none => self.m_GlobalResourcePool.GetParticle name

/-- Method `ResourceMgr::FindSpriteFont` (ResourceMgr.h 672-678). -/
def ResourceMgr.FindSpriteFont (self : ResourceMgr) (name : String) : Option ResFont :=
  match self.m_StageResourcePool.GetSpriteFont name with
  | some tRet => some tRet
  | none => self.m_GlobalResourcePool.GetSpriteFont name

/-- Method `ResourceMgr::FindTTFFont` (ResourceMgr.h 681-687). -/
def ResourceMgr.FindTTFFont (self : ResourceMgr) (name : String) : Option ResFont :=
  match self.m_StageResourcePool.GetTTFFont name with
  | some tRet => some tRet
  | none => self.m_GlobalResourcePool.GetTTFFont name

/-! ## The load operations of `ResourcePool` (ResourceMgr.cpp 89-225)

`mgr` is the manager `m_pMgr` points to and `fs` the native file system at the time of the
call.  Each returns the flag and the pool afterwards. -/

/-- Method `ResourcePool::LoadTexture(name, path, mipmaps)` (ResourceMgr.cpp 89-129). -/
def ResourcePool.LoadTexture (env : Env) (fs : NativeFS) (mgr : ResourceMgr)
    (self : ResourcePool) (name : String) (path : CodeUnits) (mipmaps : Bool) :
    Bool × ResourcePool :=
  match self.m_TexturePool.find name with
  | some _ => (true, self)
  | none =>
    match mgr.LoadFile env fs path with
    | none => (false, self)
    | some tDataBuf =>
      match env.CreateTextureFromMemory tDataBuf mipmaps with
      | none => (false, self)
      | some tTexture =>
        if env.newFails ResourceType.Texture name then (false, self)
        else
          (true, { self with
            m_TexturePool := self.m_TexturePool.emplace name
              { m_ResName := name, m_Texture := tTexture } })

/-- Method `ResourcePool::LoadImage(name, texname, x, y, w, h, a, b, rect)`
(ResourceMgr.cpp 144-186). -/
def ResourcePool.LoadImage (env : Env) (mgr : ResourceMgr) (self : ResourcePool)
    (name texname : String) (x y w h a b : ℚ) (rect : Bool) : Bool × ResourcePool :=
  match self.m_SpritePool.find name with
  | some _ => (true, self)
  | none =>
    match mgr.FindTexture texname with
    | none => (false, self)
    | some pTex =>
      match env.CreateSprite2D pTex.m_Texture ⟨x, y, x + w, y + h⟩ with
      | none => (false, self)
      | some pSprite =>
        if env.newFails ResourceType.Sprite name then (false, self)
        else
          (true, { self with
            m_SpritePool := self.m_SpritePool.emplace name
              (ResSprite.create name pSprite a b rect) })

/-- Method `ResourcePool::LoadAnimation(name, texname, x, y, w, h, n, m, intv, a, b, rect)`
(ResourceMgr.cpp 188-225). -/
def ResourcePool.LoadAnimation (env : Env) (mgr : ResourceMgr) (self : ResourcePool)
    (name texname : String) (x y w h : ℚ) (n m intv : Int) (a b : ℚ) (rect : Bool) :
    Bool × ResourcePool :=
  match self.m_AnimationPool.find name with
  | some _ => (true, self)
  | none =>
    match mgr.FindTexture texname with
    | none => (false, self)
    | some pTex =>
      if env.newFails ResourceType.Animation name then (false, self)
      else
        match ResAnimation.create env name pTex x y w h n m intv a b rect with
        | Except.error _ => (false, self)
        | Except.ok tRes =>
          (true, { self with m_AnimationPool := self.m_AnimationPool.emplace name tRes })

/-! ## Queries of `ResourcePool` and `ResAnimation` (ResourceMgr.h 112-118, 364-394,
ResourceMgr.cpp 39-87) -/

/-- The enumerator of `ResourceType` with a given underlying value; `none` for a value
that is no enumerator (the header warns that `t` can be an illegal enumeration value). -/
def ResourceType.ofInt (t : Int) : Option ResourceType :=
  if t = 1 then some ResourceType.Texture
  else if t = 2 then some ResourceType.Sprite
  else if t = 3 then some ResourceType.Animation
  else if t = 4 then some ResourceType.Music
  else if t = 5 then some ResourceType.SoundEffect
  else if t = 6 then some ResourceType.Particle
  else if t = 7 then some ResourceType.SpriteFont
  else if t = 8 then some ResourceType.TrueTypeFont
  else none

/-- Method `ResourcePool::CheckResourceExists(t, name)` (ResourceMgr.h 364-389); `t` is
the underlying value of the enumeration argument. -/
def ResourcePool.CheckResourceExists (self : ResourcePool) (t : Int) (name : String) : Bool :=
  match ResourceType.ofInt t with
  | some ResourceType.Texture => (self.m_TexturePool.find name).isSome
  | some ResourceType.Sprite => (self.m_SpritePool.find name).isSome
  | some ResourceType.Animation => (self.m_AnimationPool.find name).isSome
  | some ResourceType.Music => false
  | some ResourceType.SoundEffect => false
  | some ResourceType.Particle => (self.m_ParticlePool.find name).isSome
  | some ResourceType.SpriteFont => (self.m_SpriteFontPool.find name).isSome
  | some ResourceType.TrueTypeFont => (self.m_TTFFontPool.find name).isSome
  | none => false

/-- Method `ResourcePool::ExportResourceList(L, t)` (ResourceMgr.cpp 39-87): what is left
on the Lua stack.  `none` is `nil`; `some names` is a table whose entry at index `k + 1` is
the `k`-th element of `names` (`cnt` starts at 1 and `lua_rawseti(L, -2, cnt++)` stores in
iteration order).  The texture, sprite and animation cases store `GetResName()` of every
entry; the music, sound effect, particle and sprite font cases and the case spelled
`ResourceType::TrueType` only create the table. -/
def ResourcePool.ExportResourceList (self : ResourcePool) (t : Int) : Option (List String) :=
  match ResourceType.ofInt t with
  | some ResourceType.Texture => some (self.m_TexturePool.entries.map (fun i => i.2.m_ResName))
  | some ResourceType.Sprite => some (self.m_SpritePool.entries.map (fun i => i.2.m_ResName))
  | some ResourceType.Animation =>
    some (self.m_AnimationPool.entries.map (fun i => i.2.m_ResName))
  | some ResourceType.Music => some []
  | some ResourceType.SoundEffect => some []
  | some ResourceType.Particle => some []
  | some ResourceType.SpriteFont => some []
  | some ResourceType.TrueTypeFont => some []
  | none => none

/-- Method `ResAnimation::GetCount` (ResourceMgr.h 112). -/
def ResAnimation.GetCount (self : ResAnimation) : Nat := self.m_ImageSequences.length

/-- Method `ResAnimation::GetSprite(index)` (ResourceMgr.h 113-118); `none` is `nullptr`. -/
def ResAnimation.GetSprite (self : ResAnimation) (index : Nat) : Option f2dSprite :=
  if index ≥ self.GetCount then none else self.m_ImageSequences[index]?

/-! ## Particle systems (ResourceMgr.h 174-249) -/

/-- Vector `fcyVec2`. -/
structure fcyVec2 where
  x : ℚ
  y : ℚ
  deriving DecidableEq

/-- Struct `ResParticle::ParticleInstance`. -/
structure ParticleInstance where
  vecLocation : fcyVec2
  vecVelocity : fcyVec2
  fGravity : ℚ
  fRadialAccel : ℚ
  fTangentialAccel : ℚ
  fSpin : ℚ
  fSpinDelta : ℚ
  fSize : ℚ
  fSizeDelta : ℚ
  colColor : List ℚ
  colColorDelta : List ℚ
  fAge : ℚ
  fTerminalAge : ℚ
  deriving DecidableEq

/-- Enumeration `ResParticle::ParticlePool::Status`. -/
inductive ParticlePool.Status
  | Alive | Sleep
  deriving DecidableEq

/-- Class `ResParticle::ParticlePool`, one particle-system instance.  The array
`m_ParticlePool` is the list of its `LPARTICLE_MAXCNT` slots; the first `m_iAlive` slots
hold the particles alive. -/
structure ParticlePool where
  m_iId : Nat
  m_pInstance : ResParticle
  m_BlendMode : BlendMode
  m_iStatus : ParticlePool.Status
  m_vCenter : fcyVec2
  m_vPrevCenter : fcyVec2
  m_fRotation : ℚ
  m_iAlive : Nat
  m_fAge : ℚ
  m_fEmission : ℚ
  m_fEmissionResidue : ℚ
  m_ParticlePool : List ParticleInstance
  deriving DecidableEq

/-- Method `ParticlePool::GetAliveCount` (ResourceMgr.h 221). -/
def ParticlePool.GetAliveCount (self : ParticlePool) : Nat := self.m_iAlive

/-- Method `ParticlePool::SetActive` (ResourceMgr.h 226-231). -/
def ParticlePool.SetActive (self : ParticlePool) : ParticlePool :=
  { self with m_iStatus := ParticlePool.Status.Alive, m_fAge := 0, m_fEmissionResidue := 0 }

/-- Method `ParticlePool::SetInactive` (ResourceMgr.h 232-235). -/
def ParticlePool.SetInactive (self : ParticlePool) : ParticlePool :=
  { self with m_iStatus := ParticlePool.Status.Sleep }

/-- Method `ParticlePool::SetCenter` (ResourceMgr.h 236-243). -/
def ParticlePool.SetCenter (self : ParticlePool) (pos : fcyVec2) : ParticlePool :=
  { self with
    m_vPrevCenter := if self.m_iStatus = ParticlePool.Status.Alive then self.m_vCenter else pos
    m_vCenter := pos }

/-! ## The per-frame update of a particle system

`ParticlePool::Update(delta)` is declared in ResourceMgr.h (line 245); its body is not
among the source files.  The definitions of this section follow section 4.5 of the spec.
`LPARTICLE_MAXCNT` (the capacity, defined in `Global.h`), the random draw of a new
particle (`spawn`) and the floating-point physics of one particle (`integrate`) are
parameters. -/

/-- Modelled from the spec: the spawning loop of step 1 of `ParticlePool::Update`, whose
body is missing from the sources.  It runs `k` times, once per particle to spawn, and
stops early when the pool is full ("or until the pool is full, whichever comes first");
a new particle takes the first free slot. -/
def ParticlePool.emitLoop (LPARTICLE_MAXCNT : Nat) (spawn : ParticlePool → ParticleInstance) :
    Nat → ParticlePool → ParticlePool
  | 0, self => self
  | k + 1, self =>
    if self.m_iAlive ≥ LPARTICLE_MAXCNT then self
    else
      ParticlePool.emitLoop LPARTICLE_MAXCNT spawn k
        { self with
          m_ParticlePool := self.m_ParticlePool.set self.m_iAlive (spawn self)
          m_iAlive := self.m_iAlive + 1 }

/-- Modelled from the spec: step 1 of `ParticlePool::Update`, whose body is missing from
the sources.  "If Alive, accumulate `emissionResidue += emissionRate × delta`; spawn
`floor(emissionResidue)` new particles (consuming that integer from the residue,
fractional remainder carried to next frame) or until the pool is full". -/
def ParticlePool.emit (LPARTICLE_MAXCNT : Nat) (spawn : ParticlePool → ParticleInstance)
    (self : ParticlePool) (delta : ℚ) : ParticlePool :=
  if self.m_iStatus = ParticlePool.Status.Alive then
    let residue : ℚ := self.m_fEmissionResidue + self.m_fEmission * delta
    ParticlePool.emitLoop LPARTICLE_MAXCNT spawn ⌊residue⌋.toNat
      { self with m_fEmissionResidue := residue - ⌊residue⌋ }
  else self

/-- Modelled from the spec: step 2 of `ParticlePool::Update`, whose body is missing from
the sources.  Every alive particle is integrated over `delta` (velocity, position, spin,
size, colour: the parameter `integrate`) and its age advances by `delta`. -/
def ParticlePool.integrateAll (integrate : ℚ → ParticleInstance → ParticleInstance)
    (self : ParticlePool) (delta : ℚ) : ParticlePool :=
  { self with
    m_ParticlePool :=
      (self.m_ParticlePool.take self.m_iAlive).map
          (fun p => { integrate delta p with fAge := p.fAge + delta })
        ++ self.m_ParticlePool.drop self.m_iAlive }

/-- Modelled from the spec: step 3 of `ParticlePool::Update`, whose body is missing from
the sources.  Slot `i` is examined while alive slots remain (`k` of them are left to
examine); a particle with `age ≥ terminalAge` is swapped with the last alive slot and the
alive count is decremented, and the particle swapped in is examined next. -/
def ParticlePool.expireLoop : Nat → Nat → ParticlePool → ParticlePool
  | 0, _, self => self
  | k + 1, i, self =>
    match self.m_ParticlePool[i]? with
    | none => self
    | some p =>
      if p.fAge ≥ p.fTerminalAge then
        ParticlePool.expireLoop k i
          { self with
            m_ParticlePool :=
              (self.m_ParticlePool.set i
                ((self.m_ParticlePool[self.m_iAlive - 1]?).getD p)).set (self.m_iAlive - 1) p
            m_iAlive := self.m_iAlive - 1 }
      else ParticlePool.expireLoop k (i + 1) self

/-- Modelled from the spec: `ParticlePool::Update(delta)`, whose body is missing from the
sources: emission, integration of the alive particles, removal of the expired ones, in
this order (steps 1 to 3 of section 4.5; step 4 is `Render`). -/
def ParticlePool.Update (LPARTICLE_MAXCNT : Nat) (spawn : ParticlePool → ParticleInstance)
    (integrate : ℚ → ParticleInstance → ParticleInstance) (self : ParticlePool) (delta : ℚ) :
    ParticlePool :=
  let emitted := self.emit LPARTICLE_MAXCNT spawn delta
  let moved := emitted.integrateAll integrate delta
  ParticlePool.expireLoop moved.m_iAlive 0 moved

/-- The number of particles an `Update(delta)` spawns: the growth of the alive count over
its emission step. -/
def ParticlePool.spawned (LPARTICLE_MAXCNT : Nat) (spawn : ParticlePool → ParticleInstance)
    (self : ParticlePool) (delta : ℚ) : Nat :=
  (self.emit LPARTICLE_MAXCNT spawn delta).m_iAlive - self.m_iAlive

/-! ## Specification-side vocabulary -/

/-- Stage-first resolution, in the words of the spec: `result` is the Stage map's entry for
`name` when the Stage map has one, otherwise the Global map's entry, otherwise empty. -/
def StageFirst {T : Type} (stage global : Dictionary T) (name : String) (result : Option T) :
    Prop :=
  (∀ r, stage.find name = some r → result = some r) ∧
  (stage.find name = none → ∀ g, global.find name = some g → result = some g) ∧
  (stage.find name = none → global.find name = none → result = none)

/-- The manager after an operation on its Stage pool left that pool as `pool` (the pool
is a member of the manager). -/
def ResourceMgr.withStage (mgr : ResourceMgr) (pool : ResourcePool) : ResourceMgr :=
  { mgr with m_StageResourcePool := pool }

/-- The manager after an operation on its Global pool left that pool as `pool`. -/
def ResourceMgr.withGlobal (mgr : ResourceMgr) (pool : ResourcePool) : ResourceMgr :=
  { mgr with m_GlobalResourcePool := pool }

/-- Reference for `LoadFile`, in the words of the spec: walk the mount list front to back
and return the bytes of the first pack whose `ResourcePack::LoadFile(path)` succeeds; if
no pack succeeds, return the bytes read from the native file at that path. -/
def LoadFile_reference (env : Env) (fs : NativeFS) (packs : List ResourcePack)
    (path : CodeUnits) : Option Bytes :=
  match packs.find? (fun pk => (pk.LoadFile env path).isSome) with
  | some pk => pk.LoadFile env path
  | none => ResourceMgr.loadNative env fs path

/-- The managers reachable from one with an empty mount list (as the constructor leaves it)
through `LoadPack`, `UnloadPack` and `UnloadAllPack`. -/
inductive MountReachable : ResourceMgr → Prop
  | init (mgr : ResourceMgr) : mgr.m_ResPackList = [] → MountReachable mgr
  | loadPack (env : Env) (mgr : ResourceMgr) (path : CodeUnits) (passwd : Option CodeUnits) :
      MountReachable mgr → MountReachable (mgr.LoadPack env path passwd).2
  | unloadPack (mgr : ResourceMgr) (path : CodeUnits) :
      MountReachable mgr → MountReachable (mgr.UnloadPack path)
  | unloadAllPack (mgr : ResourceMgr) : MountReachable mgr → MountReachable mgr.UnloadAllPack

/-- The normalized paths of a mount list, front to back. -/
def mountKeys (packs : List ResourcePack) : List CodeUnits :=
  packs.map (fun pk => pk.m_PathLowerCase)

/-- The packs of a mount list whose normalized path is `tPath`. -/
def packsAt (tPath : CodeUnits) (packs : List ResourcePack) : List ResourcePack :=
  packs.filter (fun pk => decide (pk.m_PathLowerCase = tPath))

/-- Two code units that are equal, or `'/'` and `'\\'` in either order, or an ASCII
capital letter and its small letter in either order. -/
def unitsAgree (a b : Int) : Bool :=
  decide (a = b) || (decide (a = 47 ∨ a = 92) && decide (b = 47 ∨ b = 92)) ||
  (decide (65 ≤ a ∧ a ≤ 90) && decide (b = a + 32)) ||
  (decide (65 ≤ b ∧ b ≤ 90) && decide (a = b + 32))

/-- Two paths that differ only in ASCII letter case and in `'/'` versus `'\\'`: same
length, and the units agree position by position. -/
def sameUpToCaseAndSlash : CodeUnits → CodeUnits → Bool
  | [], [] => true
  | a :: p, b :: q => unitsAgree a b && sameUpToCaseAndSlash p q
  | _, _ => false

/-- What `pathUniform` does to one non-zero unit. -/
def foldUnit (c : Int) : Int :=
  if c = 47 then 92 else if 65 ≤ c ∧ c ≤ 90 then c - 65 + 97 else c

/-! ## Concrete states used to exercise the theorems -/

/-- Collaborators that always succeed: no archive on disk, the identity as UTF-8
conversion (exact on ASCII), texture object `7` for any image. -/
def exEnv : Env :=
  { WideCharToMultiByte := fun p => p
    unzOpen2 := fun _ => none
    resizeFails := fun _ => false
    openReadFails := fun _ => false
    readFails := fun _ => false
    openWriteFails := fun _ => none
    setLengthFails := fun _ => false
    writeFails := fun _ => false
    CreateTextureFromMemory := fun _ _ => some 7
    CreateSprite2D_ok := fun _ _ => true
    spriteInitZ := 0
    spriteInitColor := 0
    newFails := fun _ _ => false }

/-- A native file system with the single file `x.png`. -/
def exFS : NativeFS := fun p => if p = units "x.png" then some [1, 2] else none


/-- A global texture named `X`. -/
def exTexG : ResTexture := { m_ResName := "X", m_Texture := 1 }

/-- A stage texture named `X`. -/
def exTexS : ResTexture := { m_ResName := "X", m_Texture := 2 }

/-- A manager whose Global and Stage pools both hold a texture named `X`. -/
def exMgrShadow : ResourceMgr :=
  { ResourceMgr.create with
    m_GlobalResourcePool :=
      { ResourcePool.create ResourcePoolType.Global with m_TexturePool := ⟨[("X", exTexG)]⟩ }
    m_StageResourcePool :=
      { ResourcePool.create ResourcePoolType.Stage with m_TexturePool := ⟨[("X", exTexS)]⟩ } }

/-- A manager whose Global pool holds a texture named `X` and whose Stage pool is empty. -/
def exMgrGlobalOnly : ResourceMgr :=
  { ResourceMgr.create with
    m_GlobalResourcePool :=
      { ResourcePool.create ResourcePoolType.Global with m_TexturePool := ⟨[("X", exTexG)]⟩ } }

/-- An archive with the single entry `Images/Foo.PNG`. -/
def exZipNew : unzFile :=
  [{ info := some { name := units "Images/Foo.PNG", uncompressed_size := 2 }
     opens := fun _ => true
     content := some [10, 11] }]

/-- An archive with the entries `images\foo.png` and `b.txt`. -/
def exZipOld : unzFile :=
  [{ info := some { name := units "images\\foo.png", uncompressed_size := 1 }
     opens := fun _ => true
     content := some [20] },
   { info := some { name := units "b.txt", uncompressed_size := 1 }
     opens := fun _ => true
     content := some [21] }]

/-- The collaborators of `exEnv` with the archives `new.zip` and `old.zip` on disk. -/
def exEnvZip : Env :=
  { exEnv with
    unzOpen2 := fun p =>
      if p = units "new.zip" then some exZipNew
      else if p = units "old.zip" then some exZipOld
      else none }

/-- The pack for `old.zip` without a password. -/
def exPackOld : ResourcePack :=
  { m_Path := units "old.zip", m_PathLowerCase := units "old.zip", m_Password := [],
    m_zipFile := exZipOld }

/-- The pack for `new.zip` without a password. -/
def exPackNew : ResourcePack :=
  { m_Path := units "new.zip", m_PathLowerCase := units "new.zip", m_Password := [],
    m_zipFile := exZipNew }

/-- A manager with `old.zip` mounted. -/
def exMgrOnePack : ResourceMgr :=
  { ResourceMgr.create with m_ResPackList := [exPackOld] }

/-- A manager with `new.zip` mounted in front of `old.zip`. -/
def exMgrTwoPacks : ResourceMgr :=
  { ResourceMgr.create with m_ResPackList := [exPackNew, exPackOld] }

/-- A particle description with every value zero. -/
def exParticleInfo : ParticleInfo :=
  { iBlendInfo := 0, nEmission := 0, fLifetime := 0, fParticleLifeMin := 0,
    fParticleLifeMax := 0, fDirection := 0, fSpread := 0, bRelative := false, fSpeedMin := 0,
    fSpeedMax := 0, fGravityMin := 0, fGravityMax := 0, fRadialAccelMin := 0,
    fRadialAccelMax := 0, fTangentialAccelMin := 0, fTangentialAccelMax := 0, fSizeStart := 0,
    fSizeEnd := 0, fSizeVar := 0, fSpinStart := 0, fSpinEnd := 0, fSpinVar := 0,
    colColorStart := [0, 0, 0, 0], colColorEnd := [0, 0, 0, 0], fColorVar := 0, fAlphaVar := 0 }

/-- A particle template named `P`. -/
def exParticle : ResParticle :=
  { m_ResName := "P"
    m_BindedSprite := { texture := 1, rect := ⟨0, 0, 8, 8⟩, z := 0, color := 0 }
    m_BlendMode := BlendMode.MulAlpha, m_ParticleInfo := exParticleInfo
    m_HalfSizeX := 4, m_HalfSizeY := 4, m_bRectangle := false }

/-- A pool that stores the texture `X` and the particle template `P`. -/
def exPoolParticle : ResourcePool :=
  { ResourcePool.create ResourcePoolType.Global with
    m_TexturePool := ⟨[("X", exTexG)]⟩
    m_ParticlePool := ⟨[("P", exParticle)]⟩ }

/-- A particle at rest with the given age and terminal age. -/
def exParticleAt (age terminal : ℚ) : ParticleInstance :=
  { vecLocation := ⟨0, 0⟩, vecVelocity := ⟨0, 0⟩, fGravity := 0, fRadialAccel := 0,
    fTangentialAccel := 0, fSpin := 0, fSpinDelta := 0, fSize := 1, fSizeDelta := 0,
    colColor := [1, 1, 1, 1], colColorDelta := [0, 0, 0, 0], fAge := age,
    fTerminalAge := terminal }

/-- A sleeping particle system of eight slots with two particles alive, age 3 and
emission residue one half. -/
def exSystemBusy : ParticlePool :=
  { m_iId := 0, m_pInstance := exParticle, m_BlendMode := BlendMode.AddAlpha,
    m_iStatus := ParticlePool.Status.Sleep, m_vCenter := ⟨1, 2⟩, m_vPrevCenter := ⟨0, 1⟩,
    m_fRotation := 90, m_iAlive := 2, m_fAge := 3, m_fEmission := 10,
    m_fEmissionResidue := 1 / 2,
    m_ParticlePool := [exParticleAt 1 5, exParticleAt 2 5] ++ List.replicate 6 (exParticleAt 0 0) }

/-- An alive, empty particle system of eight slots with emission rate 2.5 per second and
residue 0. -/
def exSystemFresh : ParticlePool :=
  { m_iId := 1, m_pInstance := exParticle, m_BlendMode := BlendMode.MulAlpha,
    m_iStatus := ParticlePool.Status.Alive, m_vCenter := ⟨0, 0⟩, m_vPrevCenter := ⟨0, 0⟩,
    m_fRotation := 0, m_iAlive := 0, m_fAge := 0, m_fEmission := 5 / 2,
    m_fEmissionResidue := 0,
    m_ParticlePool := List.replicate 8 (exParticleAt 0 0) }

/-! ## Lemmas on `Dictionary` -/

theorem Dictionary.find_clear {T : Type} (d : Dictionary T) (name : String) :
    d.clear.find name = none := rfl

theorem ResourcePool.GetTexture_eq (self : ResourcePool) (name : String) :
    self.GetTexture name = self.m_TexturePool.find name := by
  unfold ResourcePool.GetTexture; cases self.m_TexturePool.find name <;> rfl

theorem ResourcePool.GetSprite_eq (self : ResourcePool) (name : String) :
    self.GetSprite name = self.m_SpritePool.find name := by
  unfold ResourcePool.GetSprite; cases self.m_SpritePool.find name <;> rfl

theorem ResourcePool.GetAnimation_eq (self : ResourcePool) (name : String) :
    self.GetAnimation name = self.m_AnimationPool.find name := by
  unfold ResourcePool.GetAnimation; cases self.m_AnimationPool.find name <;> rfl

theorem ResourcePool.GetParticle_eq (self : ResourcePool) (name : String) :
    self.GetParticle name = self.m_ParticlePool.find name := by
  unfold ResourcePool.GetParticle; cases self.m_ParticlePool.find name <;> rfl

theorem ResourcePool.GetSpriteFont_eq (self : ResourcePool) (name : String) :
    self.GetSpriteFont name = self.m_SpriteFontPool.find name := by
  unfold ResourcePool.GetSpriteFont; cases self.m_SpriteFontPool.find name <;> rfl

theorem ResourcePool.GetTTFFont_eq (self : ResourcePool) (name : String) :
    self.GetTTFFont name = self.m_TTFFontPool.find name := by
  unfold ResourcePool.GetTTFFont; cases self.m_TTFFontPool.find name <;> rfl

theorem stageFirst_of_match {T : Type} (stage global : Dictionary T) (name : String)
    (result : Option T)
    (h : result = (match stage.find name with
       | some r => some r
       | none => global.find name)) :
    StageFirst stage global name result := by
  subst h
  refine ⟨?_, ?_, ?_⟩
  · intro r h; simp [h]
  · intro h g hg; simp [h, hg]
  · intro h hg; simp [h, hg]

theorem Dictionary.find_append_new {T : Type} (d : Dictionary T) (name : String) (v : T)
    (h : d.find name = none) :
    (Dictionary.mk (d.entries ++ [(name, v)])).find name = some v := by
  unfold Dictionary.find at h ⊢
  cases hf : d.entries.find? (fun e => e.1 == name) with
  | some e => simp [hf] at h
  | none => simp [List.find?_append, hf]

theorem Dictionary.emplace_new {T : Type} (d : Dictionary T) (name : String) (v : T)
    (h : d.find name = none) : d.emplace name v = ⟨d.entries ++ [(name, v)]⟩ := by
  unfold Dictionary.emplace; rw [h]

theorem Dictionary.find_emplace_new {T : Type} (d : Dictionary T) (name : String) (v : T)
    (h : d.find name = none) : (d.emplace name v).find name = some v := by
  rw [Dictionary.emplace_new d name v h]; exact Dictionary.find_append_new d name v h

/-! ## C1: stage-first lookup -/

/-- C1: for each of the six resource kinds and every name, `Find<Kind>` returns the Stage
pool's entry when the Stage pool has one (whatever the Global pool holds), otherwise the
Global pool's entry, otherwise the empty handle.  `Find<Kind>` is a function of the manager
that yields only the handle, so both pools are what they were. -/
theorem find_stage_first (mgr : ResourceMgr) (name : String) :
    StageFirst mgr.m_StageResourcePool.m_TexturePool mgr.m_GlobalResourcePool.m_TexturePool
        name (mgr.FindTexture name) ∧
    StageFirst mgr.m_StageResourcePool.m_SpritePool mgr.m_GlobalResourcePool.m_SpritePool
        name (mgr.FindSprite name) ∧
    StageFirst mgr.m_StageResourcePool.m_AnimationPool mgr.m_GlobalResourcePool.m_AnimationPool
        name (mgr.FindAnimation name) ∧
    StageFirst mgr.m_StageResourcePool.m_ParticlePool mgr.m_GlobalResourcePool.m_ParticlePool
        name (mgr.FindParticle name) ∧
    StageFirst mgr.m_StageResourcePool.m_SpriteFontPool mgr.m_GlobalResourcePool.m_SpriteFontPool
        name (mgr.FindSpriteFont name) ∧
    StageFirst mgr.m_StageResourcePool.m_TTFFontPool mgr.m_GlobalResourcePool.m_TTFFontPool
        name (mgr.FindTTFFont name) := by
  refine ⟨?_, ?_, ?_, ?_, ?_, ?_⟩ <;> apply stageFirst_of_match
  · simp only [ResourceMgr.FindTexture, ResourcePool.GetTexture_eq]
    cases mgr.m_StageResourcePool.m_TexturePool.find name <;> rfl
  · simp only [ResourceMgr.FindSprite, ResourcePool.GetSprite_eq]
    cases mgr.m_StageResourcePool.m_SpritePool.find name <;> rfl
  · simp only [ResourceMgr.FindAnimation, ResourcePool.GetAnimation_eq]
    cases mgr.m_StageResourcePool.m_AnimationPool.find name <;> rfl
  · simp only [ResourceMgr.FindParticle, ResourcePool.GetParticle_eq]
    cases mgr.m_StageResourcePool.m_ParticlePool.find name <;> rfl
  · simp only [ResourceMgr.FindSpriteFont, ResourcePool.GetSpriteFont_eq]
    cases mgr.m_StageResourcePool.m_SpriteFontPool.find name <;> rfl
  · simp only [ResourceMgr.FindTTFFont, ResourcePool.GetTTFFont_eq]
    cases mgr.m_StageResourcePool.m_TTFFontPool.find name <;> rfl

/-- C1 at a concrete manager: both pools hold a texture `X`; the Stage one is found and it
differs from the Global one. -/
theorem find_stage_first_witness :
    exMgrShadow.m_GlobalResourcePool.GetTexture "X" = some exTexG ∧
    exMgrShadow.FindTexture "X" = some exTexS ∧ exTexS ≠ exTexG :=
  ⟨by decide, ((find_stage_first exMgrShadow "X").1).1 exTexS (by decide), by decide⟩

/-! ## Lemmas on the load operations -/

theorem ResourcePool.LoadTexture_present (env : Env) (fs : NativeFS) (mgr : ResourceMgr)
    (self : ResourcePool) (name : String) (path : CodeUnits) (mipmaps : Bool) (r : ResTexture)
    (h : self.m_TexturePool.find name = some r) :
    self.LoadTexture env fs mgr name path mipmaps = (true, self) := by
  unfold ResourcePool.LoadTexture; rw [h]

theorem ResourcePool.LoadImage_present (env : Env) (mgr : ResourceMgr)
    (self : ResourcePool) (name texname : String) (x y w h a b : ℚ) (rect : Bool) (r : ResSprite)
    (hp : self.m_SpritePool.find name = some r) :
    self.LoadImage env mgr name texname x y w h a b rect = (true, self) := by
  unfold ResourcePool.LoadImage; rw [hp]

theorem ResourcePool.LoadAnimation_present (env : Env) (mgr : ResourceMgr)
    (self : ResourcePool) (name texname : String) (x y w h : ℚ) (n m intv : Int) (a b : ℚ)
    (rect : Bool) (r : ResAnimation) (hp : self.m_AnimationPool.find name = some r) :
    self.LoadAnimation env mgr name texname x y w h n m intv a b rect = (true, self) := by
  unfold ResourcePool.LoadAnimation; rw [hp]

theorem ResourcePool.LoadTexture_absent (env : Env) (fs : NativeFS) (mgr : ResourceMgr)
    (self : ResourcePool) (name : String) (path : CodeUnits) (mipmaps : Bool)
    (h : self.m_TexturePool.find name = none) :
    self.LoadTexture env fs mgr name path mipmaps =
      match mgr.LoadFile env fs path with
      | none => (false, self)
      | some tDataBuf =>
        match env.CreateTextureFromMemory tDataBuf mipmaps with
        | none => (false, self)
        | some tTexture =>
          if env.newFails ResourceType.Texture name then (false, self)
          else
            (true, { self with
              m_TexturePool := ⟨self.m_TexturePool.entries ++
                [(name, { m_ResName := name, m_Texture := tTexture })]⟩ }) := by
  unfold ResourcePool.LoadTexture; rw [h]
  simp only [Dictionary.emplace_new _ _ _ h]

theorem ResourcePool.LoadImage_absent (env : Env) (mgr : ResourceMgr)
    (self : ResourcePool) (name texname : String) (x y w h a b : ℚ) (rect : Bool)
    (hp : self.m_SpritePool.find name = none) :
    self.LoadImage env mgr name texname x y w h a b rect =
      match mgr.FindTexture texname with
      | none => (false, self)
      | some pTex =>
        match env.CreateSprite2D pTex.m_Texture ⟨x, y, x + w, y + h⟩ with
        | none => (false, self)
        | some pSprite =>
          if env.newFails ResourceType.Sprite name then (false, self)
          else
            (true, { self with
              m_SpritePool := ⟨self.m_SpritePool.entries ++
                [(name, ResSprite.create name pSprite a b rect)]⟩ }) := by
  unfold ResourcePool.LoadImage; rw [hp]
  simp only [Dictionary.emplace_new _ _ _ hp]

theorem ResourcePool.LoadAnimation_absent (env : Env) (mgr : ResourceMgr)
    (self : ResourcePool) (name texname : String) (x y w h : ℚ) (n m intv : Int) (a b : ℚ)
    (rect : Bool) (hp : self.m_AnimationPool.find name = none) :
    self.LoadAnimation env mgr name texname x y w h n m intv a b rect =
      match mgr.FindTexture texname with
      | none => (false, self)
      | some pTex =>
        if env.newFails ResourceType.Animation name then (false, self)
        else
          match ResAnimation.create env name pTex x y w h n m intv a b rect with
          | Except.error _ => (false, self)
          | Except.ok tRes =>
            (true, { self with
              m_AnimationPool := ⟨self.m_AnimationPool.entries ++ [(name, tRes)]⟩ }) := by
  unfold ResourcePool.LoadAnimation; rw [hp]
  simp only [Dictionary.emplace_new _ _ _ hp]

theorem ResourcePool.LoadTexture_failure (env : Env) (fs : NativeFS) (mgr : ResourceMgr)
    (self : ResourcePool) (name : String) (path : CodeUnits) (mipmaps : Bool)
    (h : (self.LoadTexture env fs mgr name path mipmaps).1 = false) :
    (self.LoadTexture env fs mgr name path mipmaps).2 = self := by
  unfold ResourcePool.LoadTexture at h ⊢
  repeat' split
  all_goals first
    | rfl
    | (exfalso; simp_all)

theorem ResourcePool.LoadImage_failure (env : Env) (mgr : ResourceMgr)
    (self : ResourcePool) (name texname : String) (x y w h a b : ℚ) (rect : Bool)
    (hf : (self.LoadImage env mgr name texname x y w h a b rect).1 = false) :
    (self.LoadImage env mgr name texname x y w h a b rect).2 = self := by
  unfold ResourcePool.LoadImage at hf ⊢
  repeat' split
  all_goals first
    | rfl
    | (exfalso; simp_all)

theorem ResourcePool.LoadAnimation_failure (env : Env) (mgr : ResourceMgr)
    (self : ResourcePool) (name texname : String) (x y w h : ℚ) (n m intv : Int) (a b : ℚ)
    (rect : Bool)
    (hf : (self.LoadAnimation env mgr name texname x y w h n m intv a b rect).1 = false) :
    (self.LoadAnimation env mgr name texname x y w h n m intv a b rect).2 = self := by
  unfold ResourcePool.LoadAnimation at hf ⊢
  repeat' split
  all_goals first
    | rfl
    | (exfalso; simp_all)

theorem ResourcePool.LoadTexture_fresh (env : Env) (fs : NativeFS) (mgr : ResourceMgr)
    (self : ResourcePool) (name : String) (path : CodeUnits) (mipmaps : Bool)
    (h : self.m_TexturePool.find name = none)
    (hok : (self.LoadTexture env fs mgr name path mipmaps).1 = true) :
    ∃ buf t, mgr.LoadFile env fs path = some buf ∧
      env.CreateTextureFromMemory buf mipmaps = some t ∧
      self.LoadTexture env fs mgr name path mipmaps =
        (true, { self with
          m_TexturePool := ⟨self.m_TexturePool.entries ++
            [(name, { m_ResName := name, m_Texture := t })]⟩ }) := by
  rw [ResourcePool.LoadTexture_absent env fs mgr self name path mipmaps h] at hok ⊢
  cases hl : mgr.LoadFile env fs path with
  | none => simp [hl] at hok
  | some buf =>
    cases hc : env.CreateTextureFromMemory buf mipmaps with
    | none => simp [hl, hc] at hok
    | some t =>
      cases hnf : env.newFails ResourceType.Texture name with
      | true => simp [hl, hc, hnf] at hok
      | false => exact ⟨buf, t, rfl, hc, by simp [hc, hnf]⟩

theorem ResourcePool.LoadImage_fresh (env : Env) (mgr : ResourceMgr)
    (self : ResourcePool) (name texname : String) (x y w h a b : ℚ) (rect : Bool)
    (hp : self.m_SpritePool.find name = none)
    (hok : (self.LoadImage env mgr name texname x y w h a b rect).1 = true) :
    ∃ pTex pSprite, mgr.FindTexture texname = some pTex ∧
      env.CreateSprite2D pTex.m_Texture ⟨x, y, x + w, y + h⟩ = some pSprite ∧
      self.LoadImage env mgr name texname x y w h a b rect =
        (true, { self with
          m_SpritePool := ⟨self.m_SpritePool.entries ++
            [(name, ResSprite.create name pSprite a b rect)]⟩ }) := by
  rw [ResourcePool.LoadImage_absent env mgr self name texname x y w h a b rect hp] at hok ⊢
  cases hl : mgr.FindTexture texname with
  | none => simp [hl] at hok
  | some pTex =>
    cases hc : env.CreateSprite2D pTex.m_Texture ⟨x, y, x + w, y + h⟩ with
    | none => simp [hl, hc] at hok
    | some pSprite =>
      cases hnf : env.newFails ResourceType.Sprite name with
      | true => simp [hl, hc, hnf] at hok
      | false => exact ⟨pTex, pSprite, rfl, hc, by simp [hc, hnf]⟩

theorem ResourcePool.LoadAnimation_fresh (env : Env) (mgr : ResourceMgr)
    (self : ResourcePool) (name texname : String) (x y w h : ℚ) (n m intv : Int) (a b : ℚ)
    (rect : Bool) (hp : self.m_AnimationPool.find name = none)
    (hok : (self.LoadAnimation env mgr name texname x y w h n m intv a b rect).1 = true) :
    ∃ pTex tRes, mgr.FindTexture texname = some pTex ∧
      ResAnimation.create env name pTex x y w h n m intv a b rect = Except.ok tRes ∧
      self.LoadAnimation env mgr name texname x y w h n m intv a b rect =
        (true, { self with
          m_AnimationPool := ⟨self.m_AnimationPool.entries ++ [(name, tRes)]⟩ }) := by
  rw [ResourcePool.LoadAnimation_absent env mgr self name texname x y w h n m intv a b rect hp]
    at hok ⊢
  cases hl : mgr.FindTexture texname with
  | none => simp [hl] at hok
  | some pTex =>
    cases hnf : env.newFails ResourceType.Animation name with
    | true => simp [hl, hnf] at hok
    | false =>
      cases hc : ResAnimation.create env name pTex x y w h n m intv a b rect with
      | error e => simp [hl, hc, hnf] at hok
      | ok tRes => exact ⟨pTex, tRes, rfl, hc, by simp [hc, hnf]⟩

/-! ## C2: a Stage resource shadows the Global one of the same name -/

/-- C2: the Global pool holds `X` (entry `g`) and a load of `X` into the Stage pool returns
success.  Then the Stage pool has an entry `s` for `X`, `Find` returns `s`, the Global pool
is what it was, and after `Clear` on the Stage pool `Find` returns `g`.  When the Stage pool
had no `X` before, `s` is a new entry appended to the Stage map and built from this load's
own arguments, so the Global entry did not turn the load into a duplicate.  Stated for the
three loads of the source: `LoadTexture`, `LoadImage`, `LoadAnimation`. -/
theorem stage_load_shadows_global (env : Env) (fs : NativeFS) (mgr : ResourceMgr) (X : String) :
    (∀ (g : ResTexture) (path : CodeUnits) (mipmaps : Bool),
      mgr.m_GlobalResourcePool.GetTexture X = some g →
      (mgr.m_StageResourcePool.LoadTexture env fs mgr X path mipmaps).1 = true →
      ∃ s, (mgr.m_StageResourcePool.LoadTexture env fs mgr X path mipmaps).2.GetTexture X = some s ∧
        (mgr.withStage
          (mgr.m_StageResourcePool.LoadTexture env fs mgr X path mipmaps).2).FindTexture X
          = some s ∧
        (mgr.withStage
          (mgr.m_StageResourcePool.LoadTexture env fs mgr X path mipmaps).2).m_GlobalResourcePool
          = mgr.m_GlobalResourcePool ∧
        (mgr.withStage
          (mgr.m_StageResourcePool.LoadTexture env fs mgr X path mipmaps).2.Clear).FindTexture X
          = some g ∧
        (mgr.m_StageResourcePool.GetTexture X = none →
          ∃ buf t, mgr.LoadFile env fs path = some buf ∧
            env.CreateTextureFromMemory buf mipmaps = some t ∧
            s = { m_ResName := X, m_Texture := t } ∧
            (mgr.m_StageResourcePool.LoadTexture env fs mgr X path mipmaps).2.m_TexturePool.entries
              = mgr.m_StageResourcePool.m_TexturePool.entries ++ [(X, s)])) ∧
    (∀ (g : ResSprite) (texname : String) (x y w h a b : ℚ) (rect : Bool),
      mgr.m_GlobalResourcePool.GetSprite X = some g →
      (mgr.m_StageResourcePool.LoadImage env mgr X texname x y w h a b rect).1 = true →
      ∃ s, (mgr.m_StageResourcePool.LoadImage env mgr X texname x y w h a b rect).2.GetSprite X
          = some s ∧
        (mgr.withStage
          (mgr.m_StageResourcePool.LoadImage env mgr X texname x y w h a b rect).2).FindSprite X
          = some s ∧
        (mgr.withStage
          (mgr.m_StageResourcePool.LoadImage env mgr X texname x y w h a b rect).2
          ).m_GlobalResourcePool = mgr.m_GlobalResourcePool ∧
        (mgr.withStage
          (mgr.m_StageResourcePool.LoadImage env mgr X texname x y w h a b rect).2.Clear
          ).FindSprite X = some g ∧
        (mgr.m_StageResourcePool.GetSprite X = none →
          ∃ pTex pSprite, mgr.FindTexture texname = some pTex ∧
            env.CreateSprite2D pTex.m_Texture ⟨x, y, x + w, y + h⟩ = some pSprite ∧
            s = ResSprite.create X pSprite a b rect ∧
            (mgr.m_StageResourcePool.LoadImage env mgr X texname x y w h a b rect
              ).2.m_SpritePool.entries
              = mgr.m_StageResourcePool.m_SpritePool.entries ++ [(X, s)])) ∧
    (∀ (g : ResAnimation) (texname : String) (x y w h : ℚ) (n m intv : Int) (a b : ℚ)
        (rect : Bool),
      mgr.m_GlobalResourcePool.GetAnimation X = some g →
      (mgr.m_StageResourcePool.LoadAnimation env mgr X texname x y w h n m intv a b rect).1
        = true →
      ∃ s, (mgr.m_StageResourcePool.LoadAnimation env mgr X texname x y w h n m intv a b rect
          ).2.GetAnimation X = some s ∧
        (mgr.withStage
          (mgr.m_StageResourcePool.LoadAnimation env mgr X texname x y w h n m intv a b rect).2
          ).FindAnimation X = some s ∧
        (mgr.withStage
          (mgr.m_StageResourcePool.LoadAnimation env mgr X texname x y w h n m intv a b rect).2
          ).m_GlobalResourcePool = mgr.m_GlobalResourcePool ∧
        (mgr.withStage
          (mgr.m_StageResourcePool.LoadAnimation env mgr X texname x y w h n m intv a b rect
            ).2.Clear).FindAnimation X = some g ∧
        (mgr.m_StageResourcePool.GetAnimation X = none →
          ∃ pTex, mgr.FindTexture texname = some pTex ∧
            ResAnimation.create env X pTex x y w h n m intv a b rect = Except.ok s ∧
            (mgr.m_StageResourcePool.LoadAnimation env mgr X texname x y w h n m intv a b rect
              ).2.m_AnimationPool.entries
              = mgr.m_StageResourcePool.m_AnimationPool.entries ++ [(X, s)])) := by
  refine ⟨?_, ?_, ?_⟩
  · intro g path mipmaps hg hok
    rw [ResourcePool.GetTexture_eq] at hg
    cases hs : mgr.m_StageResourcePool.m_TexturePool.find X with
    | some s0 =>
      rw [ResourcePool.LoadTexture_present env fs mgr _ X path mipmaps s0 hs]
      refine ⟨s0, ?_, ?_, rfl, ?_, ?_⟩
      · simp [ResourcePool.GetTexture_eq, hs]
      · simp [ResourceMgr.FindTexture, ResourceMgr.withStage, ResourcePool.GetTexture_eq, hs]
      · simp [ResourceMgr.FindTexture, ResourceMgr.withStage, ResourcePool.GetTexture_eq,
          ResourcePool.Clear, Dictionary.find_clear, hg]
      · intro hn; simp [ResourcePool.GetTexture_eq, hs] at hn
    | none =>
      obtain ⟨buf, t, hl, hc, hres⟩ :=
        ResourcePool.LoadTexture_fresh env fs mgr _ X path mipmaps hs hok
      rw [hres]
      have hfind := Dictionary.find_append_new mgr.m_StageResourcePool.m_TexturePool X
        { m_ResName := X, m_Texture := t } hs
      refine ⟨{ m_ResName := X, m_Texture := t }, ?_, ?_, rfl, ?_, ?_⟩
      · simp [ResourcePool.GetTexture_eq, hfind]
      · simp [ResourceMgr.FindTexture, ResourceMgr.withStage, ResourcePool.GetTexture_eq, hfind]
      · simp [ResourceMgr.FindTexture, ResourceMgr.withStage, ResourcePool.GetTexture_eq,
          ResourcePool.Clear, Dictionary.find_clear, hg]
      · intro _
        exact ⟨buf, t, hl, hc, rfl, rfl⟩
  · intro g texname x y w h a b rect hg hok
    rw [ResourcePool.GetSprite_eq] at hg
    cases hs : mgr.m_StageResourcePool.m_SpritePool.find X with
    | some s0 =>
      rw [ResourcePool.LoadImage_present env mgr _ X texname x y w h a b rect s0 hs]
      refine ⟨s0, ?_, ?_, rfl, ?_, ?_⟩
      · simp [ResourcePool.GetSprite_eq, hs]
      · simp [ResourceMgr.FindSprite, ResourceMgr.withStage, ResourcePool.GetSprite_eq, hs]
      · simp [ResourceMgr.FindSprite, ResourceMgr.withStage, ResourcePool.GetSprite_eq,
          ResourcePool.Clear, Dictionary.find_clear, hg]
      · intro hn; simp [ResourcePool.GetSprite_eq, hs] at hn
    | none =>
      obtain ⟨pTex, pSprite, hl, hc, hres⟩ :=
        ResourcePool.LoadImage_fresh env mgr _ X texname x y w h a b rect hs hok
      rw [hres]
      have hfind := Dictionary.find_append_new mgr.m_StageResourcePool.m_SpritePool X
        (ResSprite.create X pSprite a b rect) hs
      refine ⟨ResSprite.create X pSprite a b rect, ?_, ?_, rfl, ?_, ?_⟩
      · simp [ResourcePool.GetSprite_eq, hfind]
      · simp [ResourceMgr.FindSprite, ResourceMgr.withStage, ResourcePool.GetSprite_eq, hfind]
      · simp [ResourceMgr.FindSprite, ResourceMgr.withStage, ResourcePool.GetSprite_eq,
          ResourcePool.Clear, Dictionary.find_clear, hg]
      · intro _
        exact ⟨pTex, pSprite, hl, hc, rfl, rfl⟩
  · intro g texname x y w h n m intv a b rect hg hok
    rw [ResourcePool.GetAnimation_eq] at hg
    cases hs : mgr.m_StageResourcePool.m_AnimationPool.find X with
    | some s0 =>
      rw [ResourcePool.LoadAnimation_present env mgr _ X texname x y w h n m intv a b rect s0 hs]
      refine ⟨s0, ?_, ?_, rfl, ?_, ?_⟩
      · simp [ResourcePool.GetAnimation_eq, hs]
      · simp [ResourceMgr.FindAnimation, ResourceMgr.withStage, ResourcePool.GetAnimation_eq, hs]
      · simp [ResourceMgr.FindAnimation, ResourceMgr.withStage, ResourcePool.GetAnimation_eq,
          ResourcePool.Clear, Dictionary.find_clear, hg]
      · intro hn; simp [ResourcePool.GetAnimation_eq, hs] at hn
    | none =>
      obtain ⟨pTex, tRes, hl, hc, hres⟩ :=
        ResourcePool.LoadAnimation_fresh env mgr _ X texname x y w h n m intv a b rect hs hok
      rw [hres]
      have hfind := Dictionary.find_append_new mgr.m_StageResourcePool.m_AnimationPool X
        tRes hs
      refine ⟨tRes, ?_, ?_, rfl, ?_, ?_⟩
      · simp [ResourcePool.GetAnimation_eq, hfind]
      · simp [ResourceMgr.FindAnimation, ResourceMgr.withStage, ResourcePool.GetAnimation_eq,
          hfind]
      · simp [ResourceMgr.FindAnimation, ResourceMgr.withStage, ResourcePool.GetAnimation_eq,
          ResourcePool.Clear, Dictionary.find_clear, hg]
      · intro _
        exact ⟨pTex, hl, hc, rfl⟩

/-- C2 at a concrete state: Global holds texture `X`, the Stage pool is empty, and `x.png`
loads from the native file system. -/
theorem stage_load_shadows_global_witness :
    exMgrGlobalOnly.m_GlobalResourcePool.GetTexture "X" = some exTexG ∧
    (exMgrGlobalOnly.m_StageResourcePool.LoadTexture exEnv exFS exMgrGlobalOnly "X"
      (units "x.png") true).1 = true ∧
    ∃ s, s ≠ exTexG ∧
      (exMgrGlobalOnly.withStage
        (exMgrGlobalOnly.m_StageResourcePool.LoadTexture exEnv exFS exMgrGlobalOnly "X"
          (units "x.png") true).2).FindTexture "X" = some s ∧
      (exMgrGlobalOnly.withStage
        (exMgrGlobalOnly.m_StageResourcePool.LoadTexture exEnv exFS exMgrGlobalOnly "X"
          (units "x.png") true).2.Clear).FindTexture "X" = some exTexG :=
  ⟨by decide, by decide,
    match (stage_load_shadows_global exEnv exFS exMgrGlobalOnly "X").1 exTexG (units "x.png")
      true (by decide) (by decide) with
    | ⟨s, _, h2, _, h4, h5⟩ =>
      ⟨s, (match h5 (by decide) with
          | ⟨_, t, _, hc, hs, _⟩ => by
            have ht : t = 7 := by
              have : some 7 = some t := hc
              exact (Option.some.inj this).symm
            rw [hs, ht]; decide), h2, h4⟩⟩

/-! ## C3: loading a name that is already present -/

/-- C3: for every pool and every name already present in the pool's map of that kind,
`LoadTexture`, `LoadImage` and `LoadAnimation` return success for all other arguments and
return the pool unchanged, so `Get<Kind>(name)` afterwards is the handle it was before. -/
theorem load_present_name_noop (env : Env) (fs : NativeFS) (mgr : ResourceMgr)
    (self : ResourcePool) (name : String) :
    (∀ r, self.GetTexture name = some r → ∀ (path : CodeUnits) (mipmaps : Bool),
      self.LoadTexture env fs mgr name path mipmaps = (true, self) ∧
      (self.LoadTexture env fs mgr name path mipmaps).2.GetTexture name = some r) ∧
    (∀ r, self.GetSprite name = some r → ∀ (texname : String) (x y w h a b : ℚ) (rect : Bool),
      self.LoadImage env mgr name texname x y w h a b rect = (true, self) ∧
      (self.LoadImage env mgr name texname x y w h a b rect).2.GetSprite name = some r) ∧
    (∀ r, self.GetAnimation name = some r →
      ∀ (texname : String) (x y w h : ℚ) (n m intv : Int) (a b : ℚ) (rect : Bool),
      self.LoadAnimation env mgr name texname x y w h n m intv a b rect = (true, self) ∧
      (self.LoadAnimation env mgr name texname x y w h n m intv a b rect).2.GetAnimation name
        = some r) := by
  refine ⟨?_, ?_, ?_⟩
  · intro r hr path mipmaps
    have hf := hr
    rw [ResourcePool.GetTexture_eq] at hf
    rw [ResourcePool.LoadTexture_present env fs mgr self name path mipmaps r hf]
    exact ⟨rfl, hr⟩
  · intro r hr texname x y w h a b rect
    have hf := hr
    rw [ResourcePool.GetSprite_eq] at hf
    rw [ResourcePool.LoadImage_present env mgr self name texname x y w h a b rect r hf]
    exact ⟨rfl, hr⟩
  · intro r hr texname x y w h n m intv a b rect
    have hf := hr
    rw [ResourcePool.GetAnimation_eq] at hf
    rw [ResourcePool.LoadAnimation_present env mgr self name texname x y w h n m intv a b rect
      r hf]
    exact ⟨rfl, hr⟩

/-- C3 at a concrete state: the Stage pool holds texture `X`; a load of `X` from a path
that cannot be read still returns success and the same pool. -/
theorem load_present_name_noop_witness :
    exMgrShadow.m_StageResourcePool.GetTexture "X" = some exTexS ∧
    exMgrShadow.LoadFile exEnv (fun _ => none) (units "missing.png") = none ∧
    exMgrShadow.m_StageResourcePool.LoadTexture exEnv (fun _ => none) exMgrShadow "X"
      (units "missing.png") true = (true, exMgrShadow.m_StageResourcePool) ∧
    (exMgrShadow.m_StageResourcePool.LoadTexture exEnv (fun _ => none) exMgrShadow "X"
      (units "missing.png") true).2.GetTexture "X" = some exTexS :=
  ⟨by decide, by decide,
    (load_present_name_noop exEnv (fun _ => none) exMgrShadow exMgrShadow.m_StageResourcePool
      "X").1 exTexS (by decide) (units "missing.png") true⟩

/-! ## C4: a failed load leaves the pool unchanged -/

/-- C4: for every pool, whenever `LoadTexture`, `LoadImage` or `LoadAnimation` returns
failure the pool afterwards equals the pool before (all six maps, so no entry for the
requested name is inserted); and when the name is not yet present each failure cause named
in the claim does make the load return failure: the file cannot be loaded, the renderer
cannot create the texture or the sprite, the named texture is in neither pool, or
allocation fails. -/
theorem failed_load_keeps_pool (env : Env) (fs : NativeFS) (mgr : ResourceMgr)
    (self : ResourcePool) (name : String) :
    (∀ (path : CodeUnits) (mipmaps : Bool),
      ((self.LoadTexture env fs mgr name path mipmaps).1 = false →
        (self.LoadTexture env fs mgr name path mipmaps).2 = self) ∧
      (self.GetTexture name = none →
        (mgr.LoadFile env fs path = none ∨
         (∃ buf, mgr.LoadFile env fs path = some buf ∧
            env.CreateTextureFromMemory buf mipmaps = none) ∨
         env.newFails ResourceType.Texture name = true) →
        self.LoadTexture env fs mgr name path mipmaps = (false, self))) ∧
    (∀ (texname : String) (x y w h a b : ℚ) (rect : Bool),
      ((self.LoadImage env mgr name texname x y w h a b rect).1 = false →
        (self.LoadImage env mgr name texname x y w h a b rect).2 = self) ∧
      (self.GetSprite name = none →
        (mgr.FindTexture texname = none ∨
         (∃ pTex, mgr.FindTexture texname = some pTex ∧
            env.CreateSprite2D pTex.m_Texture ⟨x, y, x + w, y + h⟩ = none) ∨
         env.newFails ResourceType.Sprite name = true) →
        self.LoadImage env mgr name texname x y w h a b rect = (false, self))) ∧
    (∀ (texname : String) (x y w h : ℚ) (n m intv : Int) (a b : ℚ) (rect : Bool),
      ((self.LoadAnimation env mgr name texname x y w h n m intv a b rect).1 = false →
        (self.LoadAnimation env mgr name texname x y w h n m intv a b rect).2 = self) ∧
      (self.GetAnimation name = none →
        (mgr.FindTexture texname = none ∨
         (∃ pTex e, mgr.FindTexture texname = some pTex ∧
            ResAnimation.create env name pTex x y w h n m intv a b rect = Except.error e) ∨
         env.newFails ResourceType.Animation name = true) →
        self.LoadAnimation env mgr name texname x y w h n m intv a b rect = (false, self))) := by
  refine ⟨?_, ?_, ?_⟩
  · intro path mipmaps
    refine ⟨ResourcePool.LoadTexture_failure env fs mgr self name path mipmaps, ?_⟩
    intro hn hc
    rw [ResourcePool.GetTexture_eq] at hn
    rw [ResourcePool.LoadTexture_absent env fs mgr self name path mipmaps hn]
    rcases hc with h1 | ⟨buf, h1, h2⟩ | h1
    · simp [h1]
    · simp [h1, h2]
    · cases hl : mgr.LoadFile env fs path with
      | none => rfl
      | some buf =>
        cases hc : env.CreateTextureFromMemory buf mipmaps with
        | none => simp [hc]
        | some t => simp [h1, hc]
  · intro texname x y w h a b rect
    refine ⟨ResourcePool.LoadImage_failure env mgr self name texname x y w h a b rect, ?_⟩
    intro hn hc
    rw [ResourcePool.GetSprite_eq] at hn
    rw [ResourcePool.LoadImage_absent env mgr self name texname x y w h a b rect hn]
    rcases hc with h1 | ⟨pTex, h1, h2⟩ | h1
    · simp [h1]
    · simp [h1, h2]
    · cases hl : mgr.FindTexture texname with
      | none => rfl
      | some pTex =>
        cases hc : env.CreateSprite2D pTex.m_Texture ⟨x, y, x + w, y + h⟩ with
        | none => simp [hc]
        | some t => simp [h1, hc]
  · intro texname x y w h n m intv a b rect
    refine ⟨ResourcePool.LoadAnimation_failure env mgr self name texname x y w h n m intv a b
      rect, ?_⟩
    intro hn hc
    rw [ResourcePool.GetAnimation_eq] at hn
    rw [ResourcePool.LoadAnimation_absent env mgr self name texname x y w h n m intv a b rect hn]
    rcases hc with h1 | ⟨pTex, e, h1, h2⟩ | h1
    · simp [h1]
    · simp [h1, h2]
    · cases hl : mgr.FindTexture texname with
      | none => rfl
      | some pTex => simp [h1]

/-- C4 at a concrete state: loading the sprite `S` from a texture name found in neither pool
fails, and the pool is returned as it was. -/
theorem failed_load_keeps_pool_witness :
    (exMgrShadow.m_StageResourcePool.LoadImage exEnv exMgrShadow "S" "nowhere"
      0 0 16 16 8 8 false).1 = false ∧
    (exMgrShadow.m_StageResourcePool.LoadImage exEnv exMgrShadow "S" "nowhere"
      0 0 16 16 8 8 false).2 = exMgrShadow.m_StageResourcePool :=
  ⟨by decide,
    ((failed_load_keeps_pool exEnv exFS exMgrShadow exMgrShadow.m_StageResourcePool "S").2.1
      "nowhere" 0 0 16 16 8 8 false).1 (by decide)⟩

/-! ## C5: `LoadFile` against its reference -/

theorem ResourceMgr.loadFromPacks_eq_none (env : Env) (path : CodeUnits)
    (packs : List ResourcePack) :
    ResourceMgr.loadFromPacks env path packs = none ↔
      ∀ pk ∈ packs, pk.LoadFile env path = none := by
  induction packs with
  | nil => simp [ResourceMgr.loadFromPacks]
  | cons i rest ih =>
    unfold ResourceMgr.loadFromPacks
    cases h : i.LoadFile env path with
    | none => simp [h, ih]
    | some b => simp [h]

theorem ResourceMgr.loadFromPacks_first (env : Env) (path : CodeUnits)
    (pre post : List ResourcePack) (pk : ResourcePack) (b : Bytes)
    (hpre : ∀ q ∈ pre, q.LoadFile env path = none) (hpk : pk.LoadFile env path = some b) :
    ResourceMgr.loadFromPacks env path (pre ++ pk :: post) = some b := by
  induction pre with
  | nil => simp [ResourceMgr.loadFromPacks, hpk]
  | cons i rest ih =>
    have hi : i.LoadFile env path = none := hpre i (List.mem_cons_self _ _)
    have hrest : ∀ q ∈ rest, q.LoadFile env path = none :=
      fun q hq => hpre q (List.mem_cons_of_mem _ hq)
    simp only [List.cons_append, ResourceMgr.loadFromPacks, hi]
    exact ih hrest

theorem ResourceMgr.loadFromPacks_reference (env : Env) (path : CodeUnits)
    (packs : List ResourcePack) :
    ResourceMgr.loadFromPacks env path packs =
      match packs.find? (fun pk => (pk.LoadFile env path).isSome) with
      | some pk => pk.LoadFile env path
      | none => none := by
  induction packs with
  | nil => rfl
  | cons i rest ih =>
    unfold ResourceMgr.loadFromPacks
    cases h : i.LoadFile env path with
    | none => simp [List.find?, h, ih]
    | some b => simp [List.find?, h]

/-- C5: `ResourceMgr::LoadFile` equals the reference; the first pack (front to back) whose
lookup succeeds decides the result whatever the later packs and the native file system
are; when every pack fails the result is the native read, whose bytes are those of the
native file; and the call fails exactly when every pack fails and the native read fails. -/
theorem loadFile_refines_reference (env : Env) (fs : NativeFS) (mgr : ResourceMgr)
    (path : CodeUnits) :
    mgr.LoadFile env fs path = LoadFile_reference env fs mgr.m_ResPackList path ∧
    (∀ (pre post : List ResourcePack) (pk : ResourcePack) (b : Bytes),
      mgr.m_ResPackList = pre ++ pk :: post →
      (∀ q ∈ pre, q.LoadFile env path = none) → pk.LoadFile env path = some b →
      ∀ (post2 : List ResourcePack) (fs2 : NativeFS),
        ResourceMgr.LoadFile env fs2 { mgr with m_ResPackList := pre ++ pk :: post2 } path
          = some b) ∧
    ((∀ pk ∈ mgr.m_ResPackList, pk.LoadFile env path = none) →
      mgr.LoadFile env fs path = ResourceMgr.loadNative env fs path ∧
      ∀ d, ResourceMgr.loadNative env fs path = some d → fs (cstr path) = some d) ∧
    (mgr.LoadFile env fs path = none ↔
      (∀ pk ∈ mgr.m_ResPackList, pk.LoadFile env path = none) ∧
        ResourceMgr.loadNative env fs path = none) := by
  refine ⟨?_, ?_, ?_, ?_⟩
  · unfold ResourceMgr.LoadFile LoadFile_reference
    rw [ResourceMgr.loadFromPacks_reference]
    cases hf : mgr.m_ResPackList.find? (fun pk => (pk.LoadFile env path).isSome) with
    | none => rfl
    | some pk =>
      have hsome := List.find?_some hf
      cases hb : pk.LoadFile env path with
      | none => simp [hb] at hsome
      | some b => simp [hb]
  · intro pre post pk b _ hpre hpk post2 fs2
    unfold ResourceMgr.LoadFile
    simp only [ResourceMgr.loadFromPacks_first env path pre post2 pk b hpre hpk]
  · intro hall
    have hnone := (ResourceMgr.loadFromPacks_eq_none env path mgr.m_ResPackList).2 hall
    refine ⟨by unfold ResourceMgr.LoadFile; rw [hnone], ?_⟩
    intro d hd
    unfold ResourceMgr.loadNative at hd
    cases hfs : fs (cstr path) with
    | none => simp [hfs] at hd
    | some data =>
      simp only [hfs] at hd
      split at hd
      · simp at hd
      · split at hd
        · simp at hd
        · split at hd
          · split at hd
            · simp at hd
            · exact hd
          · rename_i hlen
            have : data = [] := by
              cases data with
              | nil => rfl
              | cons c cs => simp at hlen
            rw [this]; exact hd
  · unfold ResourceMgr.LoadFile
    cases hp : ResourceMgr.loadFromPacks env path mgr.m_ResPackList with
    | none =>
      have hall := (ResourceMgr.loadFromPacks_eq_none env path mgr.m_ResPackList).1 hp
      simp only [true_and]
      exact ⟨fun h => ⟨hall, h⟩, fun h => h.2⟩
    | some b =>
      refine ⟨fun h => (by cases h), fun h => ?_⟩
      have hall := h.1
      have hnone := (ResourceMgr.loadFromPacks_eq_none env path mgr.m_ResPackList).2 hall
      rw [hnone] at hp
      cases hp

/-- C5 at a concrete mount list: `new.zip` in front of `old.zip`, both holding the
requested file; the front pack serves it. -/
theorem loadFile_refines_reference_witness :
    exMgrTwoPacks.m_ResPackList = [] ++ exPackNew :: [exPackOld] ∧
    exPackNew.LoadFile exEnv (units "images/foo.png") = some [10, 11] ∧
    exPackOld.LoadFile exEnv (units "images/foo.png") = some [20] ∧
    exMgrTwoPacks.LoadFile exEnv exFS (units "images/foo.png") = some [10, 11] :=
  ⟨rfl, by decide, by decide,
    (loadFile_refines_reference exEnv exFS exMgrTwoPacks (units "images/foo.png")).2.1
      [] [exPackOld] exPackNew [10, 11] rfl (fun _ h => nomatch h) (by decide) [exPackOld] exFS⟩

/-! ## Lemmas on the mount list -/

theorem ResourceMgr.mounted_eq_true (tPath : CodeUnits) (packs : List ResourcePack) :
    ResourceMgr.mounted tPath packs = true ↔ ∃ q ∈ packs, q.m_PathLowerCase = tPath := by
  induction packs with
  | nil => simp [ResourceMgr.mounted]
  | cons i rest ih =>
    unfold ResourceMgr.mounted
    by_cases h : i.m_PathLowerCase = tPath
    · simp [h]
    · simp [h, ih]

theorem ResourceMgr.mounted_eq_false (tPath : CodeUnits) (packs : List ResourcePack) :
    ResourceMgr.mounted tPath packs = false ↔ ∀ q ∈ packs, q.m_PathLowerCase ≠ tPath := by
  rw [← Bool.not_eq_true, ResourceMgr.mounted_eq_true]
  simp

theorem ResourceMgr.mounted_iff_mem (tPath : CodeUnits) (packs : List ResourcePack) :
    ResourceMgr.mounted tPath packs = true ↔ tPath ∈ mountKeys packs := by
  rw [ResourceMgr.mounted_eq_true]
  simp [mountKeys]

theorem ResourceMgr.eraseFirst_absent (tPath : CodeUnits) (packs : List ResourcePack)
    (h : ∀ q ∈ packs, q.m_PathLowerCase ≠ tPath) :
    ResourceMgr.eraseFirst tPath packs = packs := by
  induction packs with
  | nil => rfl
  | cons i rest ih =>
    have hi : i.m_PathLowerCase ≠ tPath := h i (List.mem_cons_self _ _)
    have hrest := ih (fun q hq => h q (List.mem_cons_of_mem _ hq))
    simp [ResourceMgr.eraseFirst, hi, hrest]

theorem ResourceMgr.eraseFirst_present (tPath : CodeUnits) (packs : List ResourcePack)
    (h : ∃ q ∈ packs, q.m_PathLowerCase = tPath) :
    ∃ pre x post, packs = pre ++ x :: post ∧ x.m_PathLowerCase = tPath ∧
      (∀ y ∈ pre, y.m_PathLowerCase ≠ tPath) ∧
      ResourceMgr.eraseFirst tPath packs = pre ++ post := by
  induction packs with
  | nil => simp at h
  | cons i rest ih =>
    by_cases hi : i.m_PathLowerCase = tPath
    · exact ⟨[], i, rest, rfl, hi, (fun _ hy => nomatch hy), by simp [ResourceMgr.eraseFirst, hi]⟩
    · have hex : ∃ q ∈ rest, q.m_PathLowerCase = tPath := by
        obtain ⟨q, hq, hqe⟩ := h
        rcases List.mem_cons.1 hq with rfl | hq2
        · exact absurd hqe hi
        · exact ⟨q, hq2, hqe⟩
      obtain ⟨pre, x, post, hsplit, hx, hpre, her⟩ := ih hex
      refine ⟨i :: pre, x, post, by simp [hsplit], hx, ?_, by simp [ResourceMgr.eraseFirst, hi, her]⟩
      intro y hy
      rcases List.mem_cons.1 hy with rfl | hy2
      · exact hi
      · exact hpre y hy2

theorem ResourceMgr.eraseFirst_sublist (tPath : CodeUnits) (packs : List ResourcePack) :
    List.Sublist (ResourceMgr.eraseFirst tPath packs) packs := by
  induction packs with
  | nil => exact List.Sublist.slnil
  | cons i rest ih =>
    unfold ResourceMgr.eraseFirst
    by_cases hi : i.m_PathLowerCase = tPath
    · simp [hi]
    · simp [hi, ih]

theorem ResourceMgr.LoadPack_mounted (env : Env) (mgr : ResourceMgr) (path : CodeUnits)
    (passwd : Option CodeUnits)
    (h : ResourceMgr.mounted (pathUniform (cstr path)) mgr.m_ResPackList = true) :
    mgr.LoadPack env path passwd = (true, mgr) := by
  unfold ResourceMgr.LoadPack; simp [h]

theorem ResourceMgr.LoadPack_new (env : Env) (mgr : ResourceMgr) (path : CodeUnits)
    (passwd : Option CodeUnits)
    (h : ResourceMgr.mounted (pathUniform (cstr path)) mgr.m_ResPackList = false) :
    mgr.LoadPack env path passwd =
      match env.unzOpen2 (cstr path) with
      | none => (false, mgr)
      | some zip =>
        (true, { mgr with
          m_ResPackList :=
            { m_Path := cstr path
              m_PathLowerCase := pathUniform (cstr path)
              m_Password := match passwd with
                | some pw => cstr pw
                | none => []
              m_zipFile := zip } :: mgr.m_ResPackList }) := by
  unfold ResourceMgr.LoadPack ResourcePack.create
  simp only [h]
  cases env.unzOpen2 (cstr path) <;> rfl

theorem ResourceMgr.LoadPack_keys (env : Env) (mgr : ResourceMgr) (path : CodeUnits)
    (passwd : Option CodeUnits) :
    mountKeys (mgr.LoadPack env path passwd).2.m_ResPackList = mountKeys mgr.m_ResPackList ∨
    (pathUniform (cstr path) ∉ mountKeys mgr.m_ResPackList ∧
      mountKeys (mgr.LoadPack env path passwd).2.m_ResPackList =
        pathUniform (cstr path) :: mountKeys mgr.m_ResPackList) := by
  cases h : ResourceMgr.mounted (pathUniform (cstr path)) mgr.m_ResPackList with
  | true => left; rw [ResourceMgr.LoadPack_mounted env mgr path passwd h]
  | false =>
    rw [ResourceMgr.LoadPack_new env mgr path passwd h]
    cases env.unzOpen2 (cstr path) with
    | none => left; rfl
    | some zip =>
      right
      refine ⟨?_, by simp [mountKeys]⟩
      intro hmem
      rw [← ResourceMgr.mounted_iff_mem, h] at hmem
      cases hmem

theorem packsAt_eq_nil (tPath : CodeUnits) (packs : List ResourcePack)
    (h : tPath ∉ mountKeys packs) : packsAt tPath packs = [] := by
  unfold packsAt
  rw [List.filter_eq_nil_iff]
  intro pk hpk
  simp only [decide_eq_true_eq]
  intro he
  exact h (by rw [← he]; exact List.mem_map_of_mem _ hpk)

theorem packsAt_length_one (tPath : CodeUnits) (packs : List ResourcePack)
    (hnd : (mountKeys packs).Nodup) (hmem : tPath ∈ mountKeys packs) :
    (packsAt tPath packs).length = 1 := by
  induction packs with
  | nil => simp [mountKeys] at hmem
  | cons i rest ih =>
    have hnd2 : i.m_PathLowerCase ∉ mountKeys rest ∧ (mountKeys rest).Nodup := by
      simpa [mountKeys] using hnd
    by_cases hi : i.m_PathLowerCase = tPath
    · have hnil := packsAt_eq_nil tPath rest (by rw [← hi]; exact hnd2.1)
      unfold packsAt at hnil ⊢
      simp [List.filter_cons, hi, hnil]
    · have hmem2 : tPath ∈ mountKeys rest := by
        simp only [mountKeys, List.map_cons, List.mem_cons] at hmem
        rcases hmem with h | h
        · exact absurd h.symm hi
        · exact h
      have := ih hnd2.2 hmem2
      unfold packsAt at this ⊢
      simp [List.filter_cons, hi, this]

theorem MountReachable.nodup (mgr : ResourceMgr) (h : MountReachable mgr) :
    (mountKeys mgr.m_ResPackList).Nodup := by
  induction h with
  | init mgr h0 => simp [h0, mountKeys]
  | loadPack env mgr path passwd _ ih =>
    rcases ResourceMgr.LoadPack_keys env mgr path passwd with h | ⟨hn, h⟩
    · rw [h]; exact ih
    · rw [h]; exact List.nodup_cons.2 ⟨hn, ih⟩
  | unloadPack mgr path _ ih =>
    exact List.Nodup.sublist
      (List.Sublist.map _ (ResourceMgr.eraseFirst_sublist (pathUniform (cstr path)) mgr.m_ResPackList))
      ih
  | unloadAllPack mgr _ _ => simp [ResourceMgr.UnloadAllPack, mountKeys]

/-! ## C6: a new pack is mounted in front -/

/-- C6: when no mounted pack has the normalized form of `p` and the archive at `p` opens,
`LoadPack(p, passwd)` returns success and the new mount list is the new pack (normalized
path `pathUniform p`, the opened archive) followed by the old list unchanged; so whatever
the new pack's lookup yields for a file is what `LoadFile` yields, whatever the older packs
and the native file system hold. -/
theorem loadPack_mounts_in_front (env : Env) (mgr : ResourceMgr) (p : CodeUnits)
    (passwd : Option CodeUnits) (zip : unzFile)
    (hnew : ∀ q ∈ mgr.m_ResPackList, q.m_PathLowerCase ≠ pathUniform (cstr p))
    (hopen : env.unzOpen2 (cstr p) = some zip) :
    ∃ pack : ResourcePack,
      pack.m_Path = cstr p ∧ pack.m_PathLowerCase = pathUniform (cstr p) ∧
      pack.m_zipFile = zip ∧
      mgr.LoadPack env p passwd =
        (true, { mgr with m_ResPackList := pack :: mgr.m_ResPackList }) ∧
      ∀ (fs : NativeFS) (f : CodeUnits) (b : Bytes), pack.LoadFile env f = some b →
        (mgr.LoadPack env p passwd).2.LoadFile env fs f = some b := by
  have hm := (ResourceMgr.mounted_eq_false (pathUniform (cstr p)) mgr.m_ResPackList).2 hnew
  have hres := ResourceMgr.LoadPack_new env mgr p passwd hm
  rw [hopen] at hres
  refine ⟨_, rfl, rfl, rfl, hres, ?_⟩
  intro fs f b hb
  rw [hres]
  simp only [ResourceMgr.LoadFile, ResourceMgr.loadFromPacks, hb]

/-- C6 at a concrete state: `old.zip` is mounted, `new.zip` is mounted next; both hold the
requested image and the new pack serves it. -/
theorem loadPack_mounts_in_front_witness :
    exPackOld.LoadFile exEnvZip (units "Images/Foo.PNG") = some [20] ∧
    ∃ pack : ResourcePack,
      pack.m_Path = cstr (units "new.zip") ∧
      pack.m_PathLowerCase = pathUniform (cstr (units "new.zip")) ∧
      pack.m_zipFile = exZipNew ∧
      exMgrOnePack.LoadPack exEnvZip (units "new.zip") none =
        (true, { exMgrOnePack with m_ResPackList := pack :: exMgrOnePack.m_ResPackList }) ∧
      ∀ (fs : NativeFS) (f : CodeUnits) (b : Bytes), pack.LoadFile exEnvZip f = some b →
        (exMgrOnePack.LoadPack exEnvZip (units "new.zip") none).2.LoadFile exEnvZip fs f
          = some b :=
  ⟨by decide,
    loadPack_mounts_in_front exEnvZip exMgrOnePack (units "new.zip") none exZipNew
      (by decide) rfl⟩

/-! ## C7: mounting is idempotent on the normalized path -/

/-- C7: if `pathUniform p = pathUniform p2` and `LoadPack(p)` returned success, then
`LoadPack(p2)` returns success and leaves the manager as it is, for any collaborators (so
without consulting the archive library); on a reachable manager the mount list then holds
exactly one pack with that normalized path; and no manager reachable through `LoadPack`,
`UnloadPack` and `UnloadAllPack` has two packs with equal normalized paths. -/
theorem loadPack_idempotent (env env2 : Env) (mgr : ResourceMgr) (p p2 : CodeUnits)
    (passwd passwd2 : Option CodeUnits)
    (hsame : pathUniform (cstr p) = pathUniform (cstr p2))
    (hok : (mgr.LoadPack env p passwd).1 = true) :
    (mgr.LoadPack env p passwd).2.LoadPack env2 p2 passwd2
      = (true, (mgr.LoadPack env p passwd).2) ∧
    (MountReachable mgr →
      (packsAt (pathUniform (cstr p)) (mgr.LoadPack env p passwd).2.m_ResPackList).length = 1 ∧
      (packsAt (pathUniform (cstr p))
        ((mgr.LoadPack env p passwd).2.LoadPack env2 p2 passwd2).2.m_ResPackList).length = 1) ∧
    (∀ m : ResourceMgr, MountReachable m → (mountKeys m.m_ResPackList).Nodup) := by
  have hmem : pathUniform (cstr p) ∈ mountKeys (mgr.LoadPack env p passwd).2.m_ResPackList := by
    cases h : ResourceMgr.mounted (pathUniform (cstr p)) mgr.m_ResPackList with
    | true =>
      rw [ResourceMgr.LoadPack_mounted env mgr p passwd h]
      exact (ResourceMgr.mounted_iff_mem _ _).1 h
    | false =>
      rw [ResourceMgr.LoadPack_new env mgr p passwd h] at hok ⊢
      cases ho : env.unzOpen2 (cstr p) with
      | none => simp [ho] at hok
      | some zip => simp [mountKeys]
  have hsecond : (mgr.LoadPack env p passwd).2.LoadPack env2 p2 passwd2
      = (true, (mgr.LoadPack env p passwd).2) := by
    apply ResourceMgr.LoadPack_mounted
    rw [← hsame]
    exact (ResourceMgr.mounted_iff_mem _ _).2 hmem
  refine ⟨hsecond, ?_, MountReachable.nodup⟩
  intro hreach
  have hnd := MountReachable.nodup _ (MountReachable.loadPack env mgr p passwd hreach)
  rw [hsecond]
  exact ⟨packsAt_length_one _ _ hnd hmem, packsAt_length_one _ _ hnd hmem⟩

/-- C7 at a concrete state: `new.zip` is mounted, then `NEW.ZIP` is requested from
collaborators that have no archive at all. -/
theorem loadPack_idempotent_witness :
    pathUniform (cstr (units "new.zip")) = pathUniform (cstr (units "NEW.ZIP")) ∧
    (exMgrOnePack.LoadPack exEnvZip (units "new.zip") none).1 = true ∧
    (exMgrOnePack.LoadPack exEnvZip (units "new.zip") none).2.LoadPack exEnv (units "NEW.ZIP")
      none = (true, (exMgrOnePack.LoadPack exEnvZip (units "new.zip") none).2) :=
  ⟨by decide, by decide,
    (loadPack_idempotent exEnvZip exEnv exMgrOnePack (units "new.zip") (units "NEW.ZIP") none
      none (by decide) (by decide)).1⟩

/-! ## C8: unmounting removes the first match only -/

/-- C8: if no mounted pack has the normalized form of `p`, `UnloadPack(p)` returns the
manager unchanged; otherwise the mount list splits as `pre ++ x :: post` where `x` is the
first pack whose normalized path equals `pathUniform p`, and `UnloadPack(p)` leaves
`pre ++ post`: exactly one pack is removed and the others keep their order.  `UnloadPack`
is total and returns nothing but the manager, so it raises no error. -/
theorem unloadPack_removes_first (mgr : ResourceMgr) (p : CodeUnits) :
    ((∀ q ∈ mgr.m_ResPackList, q.m_PathLowerCase ≠ pathUniform (cstr p)) →
      mgr.UnloadPack p = mgr) ∧
    ((∃ q ∈ mgr.m_ResPackList, q.m_PathLowerCase = pathUniform (cstr p)) →
      ∃ (pre : List ResourcePack) (x : ResourcePack) (post : List ResourcePack),
        mgr.m_ResPackList = pre ++ x :: post ∧
        x.m_PathLowerCase = pathUniform (cstr p) ∧
        (∀ y ∈ pre, y.m_PathLowerCase ≠ pathUniform (cstr p)) ∧
        mgr.UnloadPack p = { mgr with m_ResPackList := pre ++ post } ∧
        (mgr.UnloadPack p).m_ResPackList.length + 1 = mgr.m_ResPackList.length) := by
  refine ⟨?_, ?_⟩
  · intro h
    unfold ResourceMgr.UnloadPack
    rw [ResourceMgr.eraseFirst_absent _ _ h]
  · intro h
    obtain ⟨pre, x, post, hsplit, hx, hpre, her⟩ := ResourceMgr.eraseFirst_present _ _ h
    refine ⟨pre, x, post, hsplit, hx, hpre, ?_, ?_⟩
    · unfold ResourceMgr.UnloadPack; rw [her]
    · show (ResourceMgr.eraseFirst (pathUniform (cstr p)) mgr.m_ResPackList).length + 1
        = mgr.m_ResPackList.length
      rw [her, hsplit]
      simp only [List.length_append, List.length_cons]
      omega

/-- C8 at a concrete state: with `new.zip` in front of `old.zip`, unmounting `Old.ZIP`
leaves `new.zip` alone, and unmounting a path that is not mounted changes nothing. -/
theorem unloadPack_removes_first_witness :
    (exMgrTwoPacks.UnloadPack (units "none.zip") = exMgrTwoPacks) ∧
    mountKeys exMgrTwoPacks.m_ResPackList = [units "new.zip", units "old.zip"] ∧
    mountKeys (exMgrTwoPacks.UnloadPack (units "Old.ZIP")).m_ResPackList = [units "new.zip"] :=
  ⟨(unloadPack_removes_first exMgrTwoPacks (units "none.zip")).1 (by decide), by decide,
    by decide⟩

/-! ## C9: path normalization in the archive lookup -/

theorem cstr_pathUniform (u : CodeUnits) : cstr (pathUniform u) = (cstr u).map foldUnit := by
  induction u with
  | nil => rfl
  | cons c rest ih =>
    unfold pathUniform
    by_cases h1 : c = 47
    · subst h1; simp [cstr, foldUnit, ih]
    · by_cases h2 : 65 ≤ c ∧ c ≤ 90
      · have h0 : c ≠ 0 := by omega
        have h3 : c - 65 + 97 ≠ 0 := by omega
        simp [cstr, foldUnit, h1, h2, h0, h3, ih]
      · by_cases h0 : c = 0
        · subst h0; simp [cstr]
        · simp [cstr, foldUnit, h1, h2, h0, ih]

theorem cstr_no_zero (u : CodeUnits) : ∀ c ∈ cstr u, c ≠ 0 := by
  induction u with
  | nil => intro c hc; simp [cstr] at hc
  | cons a rest ih =>
    intro c hc
    unfold cstr at hc
    by_cases h0 : a = 0
    · simp [h0] at hc
    · simp only [h0, if_false, List.mem_cons] at hc
      rcases hc with rfl | hc
      · exact h0
      · exact ih c hc

theorem pathUniform_of_no_zero (u : CodeUnits) (h : ∀ c ∈ u, c ≠ 0) :
    pathUniform u = u.map foldUnit := by
  induction u with
  | nil => rfl
  | cons c rest ih =>
    have h0 : c ≠ 0 := h c (List.mem_cons_self _ _)
    have hr := ih (fun d hd => h d (List.mem_cons_of_mem _ hd))
    unfold pathUniform
    by_cases h1 : c = 47
    · subst h1; simp [foldUnit, hr]
    · by_cases h2 : 65 ≤ c ∧ c ≤ 90
      · simp [foldUnit, h1, h2, hr]
      · simp [foldUnit, h1, h2, h0, hr]

theorem unitsAgree_fold (a b : Int) (h : unitsAgree a b = true) :
    foldUnit a = foldUnit b ∧ (a = 0 ↔ b = 0) := by
  unfold unitsAgree at h
  simp only [Bool.or_eq_true, Bool.and_eq_true, decide_eq_true_eq] at h
  unfold foldUnit
  rcases h with ((h | h) | h) | h
  · subst h; exact ⟨rfl, Iff.rfl⟩
  · rcases h with ⟨ha | ha, hb | hb⟩ <;> subst ha <;> subst hb <;> simp
  · obtain ⟨⟨h1, h2⟩, h3⟩ := h
    subst h3
    refine ⟨?_, by omega⟩
    split_ifs <;> omega
  · obtain ⟨⟨h1, h2⟩, h3⟩ := h
    subst h3
    refine ⟨?_, by omega⟩
    split_ifs <;> omega

theorem sameUpToCaseAndSlash_cstr (p q : CodeUnits) (h : sameUpToCaseAndSlash p q = true) :
    sameUpToCaseAndSlash (cstr p) (cstr q) = true ∧
    (cstr p).map foldUnit = (cstr q).map foldUnit := by
  induction p generalizing q with
  | nil =>
    cases q with
    | nil => exact ⟨rfl, rfl⟩
    | cons b q => simp [sameUpToCaseAndSlash] at h
  | cons a p ih =>
    cases q with
    | nil => simp [sameUpToCaseAndSlash] at h
    | cons b q =>
      simp only [sameUpToCaseAndSlash, Bool.and_eq_true] at h
      obtain ⟨hab, hpq⟩ := h
      obtain ⟨hf, hz⟩ := unitsAgree_fold a b hab
      obtain ⟨ih1, ih2⟩ := ih q hpq
      by_cases ha : a = 0
      · have hb : b = 0 := hz.1 ha
        subst ha; subst hb
        simp [cstr, sameUpToCaseAndSlash]
      · have hb : b ≠ 0 := fun hb => ha (hz.2 hb)
        simp [cstr, ha, hb, sameUpToCaseAndSlash, hab, ih1, ih2, hf]

theorem ResourcePack.locate_congr (r1 r2 : CodeUnits) (h : cstr r1 = cstr r2) (dir : unzFile) :
    ResourcePack.locate r1 dir = ResourcePack.locate r2 dir := by
  induction dir with
  | nil => rfl
  | cons e rest ih =>
    unfold ResourcePack.locate
    cases e.info with
    | none => exact ih
    | some i => simp only [strcmpEq, h, ih]

theorem ResourcePack.locate_some (req : CodeUnits) (dir : unzFile) (e : ZipEntry) (info : ZipInfo)
    (h : ResourcePack.locate req dir = some (e, info)) :
    ∃ pre post, dir = pre ++ e :: post ∧ e.info = some info ∧
      cstr (pathUniform info.name) = cstr req ∧
      ∀ y ∈ pre, ∀ i, y.info = some i → cstr (pathUniform i.name) ≠ cstr req := by
  induction dir with
  | nil => simp [ResourcePack.locate] at h
  | cons d rest ih =>
    unfold ResourcePack.locate at h
    cases hd : d.info with
    | none =>
      simp only [hd] at h
      obtain ⟨pre, post, hsplit, hinfo, hname, hpre⟩ := ih h
      refine ⟨d :: pre, post, by simp [hsplit], hinfo, hname, ?_⟩
      intro y hy i hi
      rcases List.mem_cons.1 hy with rfl | hy2
      · rw [hd] at hi; cases hi
      · exact hpre y hy2 i hi
    | some di =>
      simp only [hd] at h
      by_cases hc : strcmpEq req (pathUniform di.name) = true
      · simp only [hc, if_true, Option.some.injEq, Prod.mk.injEq] at h
        obtain ⟨h1, h2⟩ := h
        subst h1; subst h2
        refine ⟨[], rest, rfl, hd, ?_, fun _ hy => nomatch hy⟩
        simp only [strcmpEq, decide_eq_true_eq] at hc
        exact hc.symm
      · simp only [hc] at h
        obtain ⟨pre, post, hsplit, hinfo, hname, hpre⟩ := ih h
        refine ⟨d :: pre, post, by simp [hsplit], hinfo, hname, ?_⟩
        intro y hy i hi
        rcases List.mem_cons.1 hy with rfl | hy2
        · rw [hd] at hi
          cases hi
          simp only [strcmpEq, decide_eq_true_eq] at hc
          exact fun he => hc he.symm
        · exact hpre y hy2 i hi

theorem ResourcePack.locate_none (req : CodeUnits) (dir : unzFile) :
    ResourcePack.locate req dir = none ↔
      ∀ y ∈ dir, ∀ i, y.info = some i → cstr (pathUniform i.name) ≠ cstr req := by
  induction dir with
  | nil => simp [ResourcePack.locate]
  | cons d rest ih =>
    unfold ResourcePack.locate
    cases hd : d.info with
    | none =>
      show ResourcePack.locate req rest = none ↔ _
      rw [ih]
      constructor
      · intro h y hy i hi
        rcases List.mem_cons.1 hy with rfl | hy2
        · rw [hd] at hi; cases hi
        · exact h y hy2 i hi
      · intro h y hy
        exact h y (List.mem_cons_of_mem _ hy)
    | some di =>
      by_cases hc : cstr req = cstr (pathUniform di.name)
      · have hs : strcmpEq req (pathUniform di.name) = true := by simp [strcmpEq, hc]
        simp only [hs, if_true]
        constructor
        · intro h; cases h
        · intro h
          exact absurd hc.symm (h d (List.mem_cons_self _ _) di hd)
      · have hs : strcmpEq req (pathUniform di.name) = false := by simp [strcmpEq, hc]
        simp only [hs, Bool.false_eq_true, if_false]
        rw [ih]
        constructor
        · intro h y hy i hi
          rcases List.mem_cons.1 hy with rfl | hy2
          · rw [hd] at hi
            cases hi
            exact fun he => hc he.symm
          · exact h y hy2 i hi
        · intro h y hy
          exact h y (List.mem_cons_of_mem _ hy)

/-- C9: let the UTF-8 conversion keep two paths that differ only in ASCII letter case and
slash direction so related (it encodes ASCII units as themselves).  For every pack and any
two such request paths: `pathUniform` maps both wide paths to the same string, the two
normalized UTF-8 requests are the same C string, the directory walk selects the same entry
for both and `ResourcePack::LoadFile` yields the same result; the selected entry is the
first one in directory order whose name, normalized by `pathUniform`, equals the normalized
request, and none is selected exactly when no entry's normalized name equals it. -/
theorem pack_lookup_normalizes (env : Env)
    (hEnc : ∀ a b, sameUpToCaseAndSlash a b = true →
      sameUpToCaseAndSlash (env.WideCharToMultiByte a) (env.WideCharToMultiByte b) = true)
    (self : ResourcePack) (p p2 : CodeUnits) (h : sameUpToCaseAndSlash p p2 = true) :
    pathUniform (cstr p) = pathUniform (cstr p2) ∧
    cstr (ResourcePack.request env p) = cstr (ResourcePack.request env p2) ∧
    ResourcePack.locate (ResourcePack.request env p) self.m_zipFile
      = ResourcePack.locate (ResourcePack.request env p2) self.m_zipFile ∧
    self.LoadFile env p = self.LoadFile env p2 ∧
    (∀ e info, ResourcePack.locate (ResourcePack.request env p) self.m_zipFile = some (e, info) →
      ∃ pre post, self.m_zipFile = pre ++ e :: post ∧ e.info = some info ∧
        cstr (pathUniform info.name) = cstr (ResourcePack.request env p) ∧
        ∀ y ∈ pre, ∀ i, y.info = some i →
          cstr (pathUniform i.name) ≠ cstr (ResourcePack.request env p)) ∧
    (ResourcePack.locate (ResourcePack.request env p) self.m_zipFile = none ↔
      ∀ y ∈ self.m_zipFile, ∀ i, y.info = some i →
        cstr (pathUniform i.name) ≠ cstr (ResourcePack.request env p)) := by
  obtain ⟨hc, hmap⟩ := sameUpToCaseAndSlash_cstr p p2 h
  have hwide : pathUniform (cstr p) = pathUniform (cstr p2) := by
    rw [pathUniform_of_no_zero _ (cstr_no_zero p), pathUniform_of_no_zero _ (cstr_no_zero p2),
      hmap]
  have hreq : cstr (ResourcePack.request env p) = cstr (ResourcePack.request env p2) := by
    unfold ResourcePack.request
    rw [cstr_pathUniform, cstr_pathUniform]
    exact (sameUpToCaseAndSlash_cstr _ _ (hEnc _ _ hc)).2
  have hloc := ResourcePack.locate_congr _ _ hreq self.m_zipFile
  refine ⟨hwide, hreq, hloc, ?_, ?_, ?_⟩
  · unfold ResourcePack.LoadFile
    rw [hloc]
  · intro e info hl
    exact ResourcePack.locate_some _ _ e info hl
  · exact ResourcePack.locate_none _ _

/-- C9 at the spec's example: `Images/Foo.PNG` and `images\foo.png` load the same entry of
the archive `new.zip`. -/
theorem pack_lookup_normalizes_witness :
    sameUpToCaseAndSlash (units "Images/Foo.PNG") (units "images\\foo.png") = true ∧
    exPackNew.LoadFile exEnv (units "Images/Foo.PNG")
      = exPackNew.LoadFile exEnv (units "images\\foo.png") ∧
    exPackNew.LoadFile exEnv (units "images\\foo.png") = some [10, 11] :=
  ⟨by decide,
    (pack_lookup_normalizes exEnv (fun _ _ hab => hab) exPackNew (units "Images/Foo.PNG")
      (units "images\\foo.png") (by decide)).2.2.2.1,
    by decide⟩

/-! ## C10: extraction round trip -/

theorem ResourceMgr.ExtractRes_success (env : Env) (fs : NativeFS) (mgr : ResourceMgr)
    (p t : CodeUnits) (b : Bytes) (hload : mgr.LoadFile env fs p = some b)
    (hok : (mgr.ExtractRes env fs p t).1 = true) :
    (mgr.ExtractRes env fs p t).2 = NativeFS.put fs (cstr t) b := by
  unfold ResourceMgr.ExtractRes at hok ⊢
  rw [hload] at hok ⊢
  cases how : env.openWriteFails (cstr t) with
  | some e => simp [how] at hok
  | none =>
    cases hsl : env.setLengthFails (cstr t) with
    | true => simp [how, hsl] at hok
    | false =>
      by_cases hlen : b.length > 0
      · cases hwf : env.writeFails (cstr t) with
        | true => simp [how, hsl, hlen, hwf] at hok
        | false =>
          simp only [hsl, hlen, hwf, Bool.false_eq_true, if_false, if_true]
          funext q
          by_cases hq : q = cstr t
          · simp [NativeFS.put, hq]
          · cases hfs : fs (cstr t) <;> simp [NativeFS.put, hq]
      · have hb : b = [] := by
          cases b with
          | nil => rfl
          | cons c cs => simp at hlen
        subst hb
        simp only [hsl, List.length_nil, gt_iff_lt, lt_self_iff_false, Bool.false_eq_true,
          if_false]
        funext q
        by_cases hq : q = cstr t
        · simp [NativeFS.put, hq]
        · cases hfs : fs (cstr t) <;> simp [NativeFS.put, hq]

theorem ResourceMgr.loadNative_some (env : Env) (fs : NativeFS) (path : CodeUnits) (b : Bytes) :
    ResourceMgr.loadNative env fs path = some b ↔
      fs (cstr path) = some b ∧ env.openReadFails (cstr path) = false ∧
        env.resizeFails b.length = false ∧ (b.length > 0 → env.readFails (cstr path) = false) := by
  unfold ResourceMgr.loadNative
  constructor
  · intro h
    cases hfs : fs (cstr path) with
    | none => simp [hfs] at h
    | some data =>
      simp only [hfs] at h
      split at h
      · cases h
      · rename_i ho
        split at h
        · cases h
        · rename_i hr
          split at h
          · split at h
            · cases h
            · rename_i hrd
              cases h
              exact ⟨rfl, by simpa using ho, by simpa using hr, fun _ => by simpa using hrd⟩
          · rename_i hlen
            cases h
            have hd : data = [] := by
              cases data with
              | nil => rfl
              | cons c cs => simp at hlen
            subst hd
            exact ⟨rfl, by simpa using ho, by simpa using hr, fun h0 => absurd h0 (by simp)⟩
  · rintro ⟨h1, h2, h3, h4⟩
    simp only [h1, h2, h3, Bool.false_eq_true, if_false]
    by_cases hlen : b.length > 0
    · simp [hlen, h4 hlen]
    · cases b with
      | nil => simp
      | cons c cs => simp at hlen

/-- C10, the claim as stated fails: `old.zip` is mounted and holds an entry `b.txt`
(bytes 21); the native file `x.png` (bytes 1, 2) is extracted to the native path `b.txt`
with success, yet `LoadFile` of `b.txt` yields the pack's bytes, not those of `x.png`. -/
theorem extract_roundtrip_shadowed :
    (exMgrOnePack.ExtractRes exEnv exFS (units "x.png") (units "b.txt")).1 = true ∧
    exMgrOnePack.LoadFile exEnv exFS (units "x.png") = some [1, 2] ∧
    exMgrOnePack.LoadFile exEnv
      (exMgrOnePack.ExtractRes exEnv exFS (units "x.png") (units "b.txt")).2 (units "x.png")
      = some [1, 2] ∧
    exMgrOnePack.LoadFile exEnv
      (exMgrOnePack.ExtractRes exEnv exFS (units "x.png") (units "b.txt")).2 (units "b.txt")
      = some [21] := by
  decide

/-- C10 amended: when `LoadFile(p)` yields `b` and `ExtractRes(p, t)` returns success, the
native file `t` afterwards holds exactly `b` and `LoadFile(p)` still yields `b`; and
`LoadFile(t)` yields `b` provided no mounted pack serves `t` and the native read of `t`
does not fail. -/
theorem extract_roundtrip_unshadowed (env : Env) (fs : NativeFS) (mgr : ResourceMgr)
    (p t : CodeUnits) (b : Bytes) (hload : mgr.LoadFile env fs p = some b)
    (hok : (mgr.ExtractRes env fs p t).1 = true) :
    (mgr.ExtractRes env fs p t).2 (cstr t) = some b ∧
    mgr.LoadFile env (mgr.ExtractRes env fs p t).2 p = some b ∧
    (ResourceMgr.loadFromPacks env t mgr.m_ResPackList = none →
      env.openReadFails (cstr t) = false → env.resizeFails b.length = false →
      env.readFails (cstr t) = false →
      mgr.LoadFile env (mgr.ExtractRes env fs p t).2 t = some b) := by
  rw [ResourceMgr.ExtractRes_success env fs mgr p t b hload hok]
  refine ⟨by simp [NativeFS.put], ?_, ?_⟩
  · unfold ResourceMgr.LoadFile at hload ⊢
    cases hp : ResourceMgr.loadFromPacks env p mgr.m_ResPackList with
    | some buf => rw [hp] at hload; exact hload
    | none =>
      rw [hp] at hload
      show ResourceMgr.loadNative env (NativeFS.put fs (cstr t) b) p = some b
      have hn := (ResourceMgr.loadNative_some env fs p b).1 hload
      rw [ResourceMgr.loadNative_some]
      refine ⟨?_, hn.2⟩
      by_cases hq : cstr p = cstr t
      · simp [NativeFS.put, hq]
      · simp [NativeFS.put, hq, hn.1]
  · intro hpk ho hr hrd
    unfold ResourceMgr.LoadFile
    rw [hpk]
    show ResourceMgr.loadNative env (NativeFS.put fs (cstr t) b) t = some b
    rw [ResourceMgr.loadNative_some]
    exact ⟨by simp [NativeFS.put], ho, hr, fun _ => hrd⟩

/-- C10 amended, at a concrete state: `x.png` is extracted to `out.bin`, which no pack
serves, and is read back unchanged. -/
theorem extract_roundtrip_unshadowed_witness :
    exMgrOnePack.LoadFile exEnv exFS (units "x.png") = some [1, 2] ∧
    (exMgrOnePack.ExtractRes exEnv exFS (units "x.png") (units "out.bin")).1 = true ∧
    exMgrOnePack.LoadFile exEnv
      (exMgrOnePack.ExtractRes exEnv exFS (units "x.png") (units "out.bin")).2 (units "out.bin")
      = some [1, 2] :=
  ⟨by decide, by decide,
    (extract_roundtrip_unshadowed exEnv exFS exMgrOnePack (units "x.png") (units "out.bin")
      [1, 2] (by decide) (by decide)).2.2 (by decide) rfl rfl rfl⟩

/-! ## C11: the flag returned by `ExtractRes` -/

theorem ResourceMgr.ExtractRes_load_failure (env : Env) (fs : NativeFS) (mgr : ResourceMgr)
    (p t : CodeUnits) (h : mgr.LoadFile env fs p = none) :
    mgr.ExtractRes env fs p t = (true, fs) := by
  unfold ResourceMgr.ExtractRes; rw [h]

/-- C11, the code at the failing input: `missing.bin` is in no mounted pack and not in the
native file system, so `LoadFile` fails and nothing is extracted (the target `out.bin`
still does not exist), yet `ExtractRes` returns true where the claim requires failure. -/
theorem extractRes_true_without_extraction :
    exMgrOnePack.LoadFile exEnv exFS (units "missing.bin") = none ∧
    (exMgrOnePack.ExtractRes exEnv exFS (units "missing.bin") (units "out.bin")).1 = true ∧
    (exMgrOnePack.ExtractRes exEnv exFS (units "missing.bin") (units "out.bin")).2
      (units "out.bin") = none ∧
    exFS (units "out.bin") = none := by
  decide

/-! ## C12: `ClearAllResource` -/

/-- C12: for every manager, after `ClearAllResource` all six maps of the Global and of the
Stage pool are empty, every `Find<Kind>` returns the empty handle, `CheckResourceExists`
is false on both pools for every kind value and name, the active-pool selector is Global
and the global image scale factor is 1. -/
theorem clearAllResource_resets (mgr : ResourceMgr) :
    (mgr.ClearAllResource.m_GlobalResourcePool.m_TexturePool.entries = [] ∧
     mgr.ClearAllResource.m_GlobalResourcePool.m_SpritePool.entries = [] ∧
     mgr.ClearAllResource.m_GlobalResourcePool.m_AnimationPool.entries = [] ∧
     mgr.ClearAllResource.m_GlobalResourcePool.m_ParticlePool.entries = [] ∧
     mgr.ClearAllResource.m_GlobalResourcePool.m_SpriteFontPool.entries = [] ∧
     mgr.ClearAllResource.m_GlobalResourcePool.m_TTFFontPool.entries = []) ∧
    (mgr.ClearAllResource.m_StageResourcePool.m_TexturePool.entries = [] ∧
     mgr.ClearAllResource.m_StageResourcePool.m_SpritePool.entries = [] ∧
     mgr.ClearAllResource.m_StageResourcePool.m_AnimationPool.entries = [] ∧
     mgr.ClearAllResource.m_StageResourcePool.m_ParticlePool.entries = [] ∧
     mgr.ClearAllResource.m_StageResourcePool.m_SpriteFontPool.entries = [] ∧
     mgr.ClearAllResource.m_StageResourcePool.m_TTFFontPool.entries = []) ∧
    (∀ name : String,
      mgr.ClearAllResource.FindTexture name = none ∧
      mgr.ClearAllResource.FindSprite name = none ∧
      mgr.ClearAllResource.FindAnimation name = none ∧
      mgr.ClearAllResource.FindParticle name = none ∧
      mgr.ClearAllResource.FindSpriteFont name = none ∧
      mgr.ClearAllResource.FindTTFFont name = none) ∧
    (∀ (t : Int) (name : String),
      mgr.ClearAllResource.m_GlobalResourcePool.CheckResourceExists t name = false ∧
      mgr.ClearAllResource.m_StageResourcePool.CheckResourceExists t name = false) ∧
    mgr.ClearAllResource.m_ActivedPool = ResourcePoolType.Global ∧
    mgr.ClearAllResource.m_GlobalImageScaleFactor = 1 := by
  refine ⟨⟨rfl, rfl, rfl, rfl, rfl, rfl⟩, ⟨rfl, rfl, rfl, rfl, rfl, rfl⟩, ?_, ?_, rfl, rfl⟩
  · intro name
    exact ⟨rfl, rfl, rfl, rfl, rfl, rfl⟩
  · intro t name
    constructor
    · unfold ResourcePool.CheckResourceExists
      cases ResourceType.ofInt t with
      | none => rfl
      | some k => cases k <;> rfl
    · unfold ResourcePool.CheckResourceExists
      cases ResourceType.ofInt t with
      | none => rfl
      | some k => cases k <;> rfl

/-- C12 at a concrete manager: both pools hold the texture `X`, the Stage pool is the
active one and the scale factor is 2; after `ClearAllResource` the texture is gone and the
selector and the factor are reset. -/
theorem clearAllResource_resets_witness :
    ({ exMgrShadow with
        m_ActivedPool := ResourcePoolType.Stage
        m_GlobalImageScaleFactor := 2 } : ResourceMgr).FindTexture "X" = some exTexS ∧
    ({ exMgrShadow with
        m_ActivedPool := ResourcePoolType.Stage
        m_GlobalImageScaleFactor := 2 } : ResourceMgr).ClearAllResource.FindTexture "X"
      = none ∧
    ({ exMgrShadow with
        m_ActivedPool := ResourcePoolType.Stage
        m_GlobalImageScaleFactor := 2 } : ResourceMgr).ClearAllResource.m_ActivedPool
      = ResourcePoolType.Global ∧
    ({ exMgrShadow with
        m_ActivedPool := ResourcePoolType.Stage
        m_GlobalImageScaleFactor := 2 } : ResourceMgr).ClearAllResource.m_GlobalImageScaleFactor
      = 1 :=
  ⟨by decide,
    ((clearAllResource_resets { exMgrShadow with
        m_ActivedPool := ResourcePoolType.Stage
        m_GlobalImageScaleFactor := 2 }).2.2.1 "X").1,
    (clearAllResource_resets { exMgrShadow with
        m_ActivedPool := ResourcePoolType.Stage
        m_GlobalImageScaleFactor := 2 }).2.2.2.2.1,
    (clearAllResource_resets { exMgrShadow with
        m_ActivedPool := ResourcePoolType.Stage
        m_GlobalImageScaleFactor := 2 }).2.2.2.2.2⟩

/-! ## C13: `ExportResourceList` -/

/-- C13, the code at the failing input: the pool stores the particle template `P`
(`GetParticle` returns it and `CheckResourceExists` is true for kind 6), yet the list
exported for the particle kind is an empty table, while the list exported for the texture
kind of the same pool holds its texture name. -/
theorem exportResourceList_omits_particles :
    exPoolParticle.GetParticle "P" = some exParticle ∧
    exPoolParticle.CheckResourceExists 6 "P" = true ∧
    exPoolParticle.ExportResourceList 6 = some [] ∧
    exPoolParticle.ExportResourceList 1 = some ["X"] := by
  decide

/-! ## C14: `SetActive` and `SetInactive` -/

/-- C14: for every particle-system instance, `SetActive` sets the status to Alive, the age
to 0 and the emission residue to 0, `SetInactive` sets the status to Sleep, and both leave
the alive count, every particle record, the center and the previous center, the rotation,
the emission rate and the blend mode as they are; `SetInactive` also leaves the age and the
residue as they are. -/
theorem setActive_setInactive_frame (p : ParticlePool) :
    (p.SetActive.m_iStatus = ParticlePool.Status.Alive ∧ p.SetActive.m_fAge = 0 ∧
     p.SetActive.m_fEmissionResidue = 0) ∧
    p.SetInactive.m_iStatus = ParticlePool.Status.Sleep ∧
    (p.SetActive.m_iAlive = p.m_iAlive ∧ p.SetActive.m_ParticlePool = p.m_ParticlePool ∧
     p.SetActive.m_vCenter = p.m_vCenter ∧ p.SetActive.m_vPrevCenter = p.m_vPrevCenter ∧
     p.SetActive.m_fRotation = p.m_fRotation ∧ p.SetActive.m_fEmission = p.m_fEmission ∧
     p.SetActive.m_BlendMode = p.m_BlendMode ∧ p.SetActive.GetAliveCount = p.GetAliveCount) ∧
    (p.SetInactive.m_iAlive = p.m_iAlive ∧ p.SetInactive.m_ParticlePool = p.m_ParticlePool ∧
     p.SetInactive.m_vCenter = p.m_vCenter ∧ p.SetInactive.m_vPrevCenter = p.m_vPrevCenter ∧
     p.SetInactive.m_fRotation = p.m_fRotation ∧ p.SetInactive.m_fEmission = p.m_fEmission ∧
     p.SetInactive.m_BlendMode = p.m_BlendMode ∧
     p.SetInactive.GetAliveCount = p.GetAliveCount ∧
     p.SetInactive.m_fAge = p.m_fAge ∧
     p.SetInactive.m_fEmissionResidue = p.m_fEmissionResidue) :=
  ⟨⟨rfl, rfl, rfl⟩, rfl, ⟨rfl, rfl, rfl, rfl, rfl, rfl, rfl, rfl⟩,
    ⟨rfl, rfl, rfl, rfl, rfl, rfl, rfl, rfl, rfl, rfl⟩⟩

/-- C14 at a concrete instance: a sleeping system with two particles alive, age 3 and
residue one half is activated and deactivated. -/
theorem setActive_setInactive_frame_witness :
    exSystemBusy.m_iStatus = ParticlePool.Status.Sleep ∧ exSystemBusy.m_fAge = 3 ∧
    exSystemBusy.m_fEmissionResidue = 1 / 2 ∧ exSystemBusy.m_iAlive = 2 ∧
    (exSystemBusy.SetActive.m_iStatus = ParticlePool.Status.Alive ∧
      exSystemBusy.SetActive.m_fAge = 0 ∧ exSystemBusy.SetActive.m_fEmissionResidue = 0) ∧
    exSystemBusy.SetActive.SetInactive.m_iStatus = ParticlePool.Status.Sleep ∧
    exSystemBusy.SetActive.SetInactive.m_ParticlePool = exSystemBusy.m_ParticlePool :=
  ⟨rfl, rfl, rfl, rfl, (setActive_setInactive_frame exSystemBusy).1,
    (setActive_setInactive_frame exSystemBusy.SetActive).2.1,
    ((setActive_setInactive_frame exSystemBusy.SetActive).2.2.2.2.1).trans
      (setActive_setInactive_frame exSystemBusy).2.2.1.2.1⟩

/-! ## C15: `LoadPack` when the archive cannot be opened -/

/-- C15: when no mounted pack has the normalized form of `p` and the archive at `p` cannot
be opened, the `ResourcePack` constructor throws `fcyException`, `LoadPack` catches it and
returns failure, and the manager (its mount list included) is exactly what it was.
`LoadPack` is total and yields only the flag and the manager, so nothing is raised to the
caller. -/
theorem loadPack_open_failure (env : Env) (mgr : ResourceMgr) (p : CodeUnits)
    (passwd : Option CodeUnits)
    (hnew : ∀ q ∈ mgr.m_ResPackList, q.m_PathLowerCase ≠ pathUniform (cstr p))
    (hfail : env.unzOpen2 (cstr p) = none) :
    (∃ e, ResourcePack.create env p passwd = Except.error e) ∧
    mgr.LoadPack env p passwd = (false, mgr) ∧
    (mgr.LoadPack env p passwd).2.m_ResPackList = mgr.m_ResPackList := by
  have hm := (ResourceMgr.mounted_eq_false (pathUniform (cstr p)) mgr.m_ResPackList).2 hnew
  have hres := ResourceMgr.LoadPack_new env mgr p passwd hm
  rw [hfail] at hres
  refine ⟨⟨Exn.fcyException, ?_⟩, hres, by rw [hres]⟩
  unfold ResourcePack.create
  rw [hfail]

/-- C15 at a concrete state: `old.zip` is mounted and there is no archive `broken.zip`. -/
theorem loadPack_open_failure_witness :
    (∀ q ∈ exMgrOnePack.m_ResPackList,
      q.m_PathLowerCase ≠ pathUniform (cstr (units "broken.zip"))) ∧
    exEnvZip.unzOpen2 (cstr (units "broken.zip")) = none ∧
    exMgrOnePack.LoadPack exEnvZip (units "broken.zip") none = (false, exMgrOnePack) :=
  ⟨by decide, rfl,
    (loadPack_open_failure exEnvZip exMgrOnePack (units "broken.zip") none (by decide) rfl).2.1⟩

/-! ## C16: emission residue across frames -/

theorem ParticlePool.emitLoop_fields (cap : Nat) (spawn : ParticlePool → ParticleInstance) :
    ∀ (k : Nat) (self : ParticlePool),
      (ParticlePool.emitLoop cap spawn k self).m_iStatus = self.m_iStatus ∧
      (ParticlePool.emitLoop cap spawn k self).m_fEmission = self.m_fEmission ∧
      (ParticlePool.emitLoop cap spawn k self).m_fEmissionResidue = self.m_fEmissionResidue ∧
      (ParticlePool.emitLoop cap spawn k self).m_iAlive
        = self.m_iAlive + min k (cap - self.m_iAlive) := by
  intro k
  induction k with
  | zero => intro self; simp [ParticlePool.emitLoop]
  | succ k ih =>
    intro self
    unfold ParticlePool.emitLoop
    by_cases h : self.m_iAlive ≥ cap
    · simp only [h, if_true, true_and]
      have : cap - self.m_iAlive = 0 := by omega
      simp [this]
    · simp only [h, if_false]
      obtain ⟨h1, h2, h3, h4⟩ := ih
        { self with
          m_ParticlePool := self.m_ParticlePool.set self.m_iAlive (spawn self)
          m_iAlive := self.m_iAlive + 1 }
      refine ⟨h1, h2, h3, ?_⟩
      rw [h4]
      simp only [Nat.min_def]
      split_ifs <;> omega

theorem ParticlePool.expireLoop_fields :
    ∀ (k i : Nat) (self : ParticlePool),
      (ParticlePool.expireLoop k i self).m_iStatus = self.m_iStatus ∧
      (ParticlePool.expireLoop k i self).m_fEmission = self.m_fEmission ∧
      (ParticlePool.expireLoop k i self).m_fEmissionResidue = self.m_fEmissionResidue ∧
      (ParticlePool.expireLoop k i self).m_iAlive ≤ self.m_iAlive := by
  intro k
  induction k with
  | zero => intro i self; simp [ParticlePool.expireLoop]
  | succ k ih =>
    intro i self
    unfold ParticlePool.expireLoop
    cases hp : self.m_ParticlePool[i]? with
    | none => simp
    | some p =>
      by_cases hx : p.fAge ≥ p.fTerminalAge
      · simp only [hx, if_true]
        obtain ⟨h1, h2, h3, h4⟩ := ih i
          { self with
            m_ParticlePool :=
              (self.m_ParticlePool.set i
                ((self.m_ParticlePool[self.m_iAlive - 1]?).getD p)).set (self.m_iAlive - 1) p
            m_iAlive := self.m_iAlive - 1 }
        exact ⟨h1, h2, h3, le_trans h4 (Nat.sub_le _ _)⟩
      · simp only [hx, if_false]
        exact ih (i + 1) self

theorem ParticlePool.emit_alive (cap : Nat) (spawn : ParticlePool → ParticleInstance)
    (self : ParticlePool) (delta : ℚ) (h : self.m_iStatus = ParticlePool.Status.Alive) :
    (self.emit cap spawn delta).m_iStatus = ParticlePool.Status.Alive ∧
    (self.emit cap spawn delta).m_fEmission = self.m_fEmission ∧
    (self.emit cap spawn delta).m_fEmissionResidue
      = Int.fract (self.m_fEmissionResidue + self.m_fEmission * delta) ∧
    (self.emit cap spawn delta).m_iAlive = self.m_iAlive +
      min ⌊self.m_fEmissionResidue + self.m_fEmission * delta⌋.toNat (cap - self.m_iAlive) := by
  unfold ParticlePool.emit
  rw [if_pos h]
  obtain ⟨h1, h2, h3, h4⟩ := ParticlePool.emitLoop_fields cap spawn
    ⌊self.m_fEmissionResidue + self.m_fEmission * delta⌋.toNat
    { self with
      m_fEmissionResidue := self.m_fEmissionResidue + self.m_fEmission * delta
        - ⌊self.m_fEmissionResidue + self.m_fEmission * delta⌋ }
  exact ⟨h1.trans h, h2, h3, h4⟩

theorem ParticlePool.Update_fields (cap : Nat) (spawn : ParticlePool → ParticleInstance)
    (integrate : ℚ → ParticleInstance → ParticleInstance) (self : ParticlePool) (delta : ℚ) :
    (self.Update cap spawn integrate delta).m_iStatus
      = (self.emit cap spawn delta).m_iStatus ∧
    (self.Update cap spawn integrate delta).m_fEmission
      = (self.emit cap spawn delta).m_fEmission ∧
    (self.Update cap spawn integrate delta).m_fEmissionResidue
      = (self.emit cap spawn delta).m_fEmissionResidue ∧
    (self.Update cap spawn integrate delta).m_iAlive ≤ (self.emit cap spawn delta).m_iAlive := by
  unfold ParticlePool.Update
  exact ParticlePool.expireLoop_fields _ 0
    ((self.emit cap spawn delta).integrateAll integrate delta)

/-- C16: with `ParticlePool::Update` as the spec describes it, each update of an instance
that is Alive spawns `floor(residue + rate × delta)` particles, capped by the free capacity
`LPARTICLE_MAXCNT − aliveCount`, and leaves the fractional remainder of
`residue + rate × delta` as the new residue; so for an Alive instance with an empty pool,
residue 0 and rate 2.5 per second (and a capacity of at least 5), two successive
`Update(1.0)` calls spawn 2 and then 3 particles, 5 in total, with residue one half after
the first and 0 after the second. -/
theorem emission_residue_carries (LPARTICLE_MAXCNT : Nat)
    (spawn : ParticlePool → ParticleInstance)
    (integrate : ℚ → ParticleInstance → ParticleInstance) :
    (∀ (pool : ParticlePool) (delta : ℚ), pool.m_iStatus = ParticlePool.Status.Alive →
      ParticlePool.spawned LPARTICLE_MAXCNT spawn pool delta =
        min ⌊pool.m_fEmissionResidue + pool.m_fEmission * delta⌋.toNat
          (LPARTICLE_MAXCNT - pool.m_iAlive) ∧
      (pool.Update LPARTICLE_MAXCNT spawn integrate delta).m_fEmissionResidue =
        Int.fract (pool.m_fEmissionResidue + pool.m_fEmission * delta)) ∧
    (∀ pool : ParticlePool, 5 ≤ LPARTICLE_MAXCNT →
      pool.m_iStatus = ParticlePool.Status.Alive → pool.m_iAlive = 0 →
      pool.m_fEmissionResidue = 0 → pool.m_fEmission = 5 / 2 →
      ParticlePool.spawned LPARTICLE_MAXCNT spawn pool 1 = 2 ∧
      (pool.Update LPARTICLE_MAXCNT spawn integrate 1).m_fEmissionResidue = 1 / 2 ∧
      ParticlePool.spawned LPARTICLE_MAXCNT spawn
        (pool.Update LPARTICLE_MAXCNT spawn integrate 1) 1 = 3 ∧
      ((pool.Update LPARTICLE_MAXCNT spawn integrate 1).Update LPARTICLE_MAXCNT spawn
        integrate 1).m_fEmissionResidue = 0 ∧
      ParticlePool.spawned LPARTICLE_MAXCNT spawn pool 1 +
        ParticlePool.spawned LPARTICLE_MAXCNT spawn
          (pool.Update LPARTICLE_MAXCNT spawn integrate 1) 1 = 5) := by
  have general : ∀ (pool : ParticlePool) (delta : ℚ),
      pool.m_iStatus = ParticlePool.Status.Alive →
      ParticlePool.spawned LPARTICLE_MAXCNT spawn pool delta =
        min ⌊pool.m_fEmissionResidue + pool.m_fEmission * delta⌋.toNat
          (LPARTICLE_MAXCNT - pool.m_iAlive) ∧
      (pool.Update LPARTICLE_MAXCNT spawn integrate delta).m_fEmissionResidue =
        Int.fract (pool.m_fEmissionResidue + pool.m_fEmission * delta) := by
    intro pool delta hs
    obtain ⟨_, _, e3, e4⟩ := ParticlePool.emit_alive LPARTICLE_MAXCNT spawn pool delta hs
    obtain ⟨_, _, u3, _⟩ := ParticlePool.Update_fields LPARTICLE_MAXCNT spawn integrate pool delta
    refine ⟨?_, u3.trans e3⟩
    unfold ParticlePool.spawned
    rw [e4]
    omega
  refine ⟨general, ?_⟩
  intro pool hcap hs ha hr he
  obtain ⟨e1, e2, _, e4⟩ := ParticlePool.emit_alive LPARTICLE_MAXCNT spawn pool 1 hs
  obtain ⟨u1, u2, _, u4⟩ := ParticlePool.Update_fields LPARTICLE_MAXCNT spawn integrate pool 1
  obtain ⟨g1, g2⟩ := general pool 1 hs
  have hfloor1 : ⌊pool.m_fEmissionResidue + pool.m_fEmission * 1⌋ = 2 := by
    rw [hr, he, Int.floor_eq_iff]; norm_num
  have hres1 : (pool.Update LPARTICLE_MAXCNT spawn integrate 1).m_fEmissionResidue = 1 / 2 := by
    rw [g2, Int.fract, hfloor1, hr, he]; norm_num
  have hsp1 : ParticlePool.spawned LPARTICLE_MAXCNT spawn pool 1 = 2 := by
    rw [g1, hfloor1, ha]
    have h2 : (2 : ℤ).toNat = 2 := rfl
    rw [h2]
    exact Nat.min_eq_left (by omega)
  have hs2 : (pool.Update LPARTICLE_MAXCNT spawn integrate 1).m_iStatus
      = ParticlePool.Status.Alive := u1.trans e1
  have he2 : (pool.Update LPARTICLE_MAXCNT spawn integrate 1).m_fEmission = 5 / 2 :=
    (u2.trans e2).trans he
  have ha2 : (pool.Update LPARTICLE_MAXCNT spawn integrate 1).m_iAlive ≤ 2 := by
    have : (pool.emit LPARTICLE_MAXCNT spawn 1).m_iAlive ≤ 2 := by
      rw [e4, hfloor1, ha]
      have h2 : (2 : ℤ).toNat = 2 := rfl
      rw [h2, Nat.zero_add]
      exact Nat.min_le_left _ _
    exact le_trans u4 this
  obtain ⟨k1, k2⟩ := general (pool.Update LPARTICLE_MAXCNT spawn integrate 1) 1 hs2
  have hfloor2 : ⌊(pool.Update LPARTICLE_MAXCNT spawn integrate 1).m_fEmissionResidue
      + (pool.Update LPARTICLE_MAXCNT spawn integrate 1).m_fEmission * 1⌋ = 3 := by
    rw [hres1, he2, Int.floor_eq_iff]; norm_num
  have hres2 : ((pool.Update LPARTICLE_MAXCNT spawn integrate 1).Update LPARTICLE_MAXCNT spawn
      integrate 1).m_fEmissionResidue = 0 := by
    rw [k2, Int.fract, hfloor2, hres1, he2]; norm_num
  have hsp2 : ParticlePool.spawned LPARTICLE_MAXCNT spawn
      (pool.Update LPARTICLE_MAXCNT spawn integrate 1) 1 = 3 := by
    rw [k1, hfloor2]
    have h3 : (3 : ℤ).toNat = 3 := rfl
    rw [h3]
    exact Nat.min_eq_left (by omega)
  exact ⟨hsp1, hres1, hsp2, hres2, by rw [hsp1, hsp2]⟩

/-- C16 at a concrete instance: eight slots, rate 2.5 per second, new particles that live
ten seconds and particles that do not move. -/
theorem emission_residue_carries_witness :
    5 ≤ 8 ∧ exSystemFresh.m_iStatus = ParticlePool.Status.Alive ∧ exSystemFresh.m_iAlive = 0 ∧
    exSystemFresh.m_fEmissionResidue = 0 ∧ exSystemFresh.m_fEmission = 5 / 2 ∧
    ParticlePool.spawned 8 (fun _ => exParticleAt 0 10) exSystemFresh 1 = 2 ∧
    (exSystemFresh.Update 8 (fun _ => exParticleAt 0 10) (fun _ q => q) 1).m_fEmissionResidue
      = 1 / 2 ∧
    ParticlePool.spawned 8 (fun _ => exParticleAt 0 10)
      (exSystemFresh.Update 8 (fun _ => exParticleAt 0 10) (fun _ q => q) 1) 1 = 3 ∧
    ((exSystemFresh.Update 8 (fun _ => exParticleAt 0 10) (fun _ q => q) 1).Update 8
      (fun _ => exParticleAt 0 10) (fun _ q => q) 1).m_fEmissionResidue = 0 ∧
    ParticlePool.spawned 8 (fun _ => exParticleAt 0 10) exSystemFresh 1 +
      ParticlePool.spawned 8 (fun _ => exParticleAt 0 10)
        (exSystemFresh.Update 8 (fun _ => exParticleAt 0 10) (fun _ q => q) 1) 1 = 5 :=
  ⟨by decide, rfl, rfl, rfl, rfl,
    (emission_residue_carries 8 (fun _ => exParticleAt 0 10) (fun _ q => q)).2 exSystemFresh
      (by decide) rfl rfl rfl rfl⟩

/-! ## C17: grid slicing in the `ResAnimation` constructor -/

/-- C17, the code at the failing input: a 4 × 2 rectangle at the origin sliced into one
column and two rows.  The constructor succeeds with two frames, but the second frame is the
rectangle from (0, 2) to (4, 4), of height `w / m = 2`, not the rectangle from (0, 1) to
(4, 2) of height `h / m = 1` that the claim states; it lies outside the source rectangle. -/
theorem resAnimation_row_height_uses_width :
    ∃ anim : ResAnimation,
      ResAnimation.create exEnv "A" exTexG 0 0 4 2 1 2 1 0 0 false = Except.ok anim ∧
      anim.GetCount = 2 ∧ anim.GetSprite 2 = none ∧
      (anim.GetSprite 0).map (fun t => t.rect) = some ⟨0, 0, 4, 2⟩ ∧
      (anim.GetSprite 1).map (fun t => t.rect) = some ⟨0, 2, 4, 4⟩ ∧
      (⟨0, 2, 4, 4⟩ : fcyRect) ≠ ⟨0 + 0 * (4 / 1), 0 + 1 * (2 / 2), 0 + 1 * (4 / 1), 0 + 2 * (2 / 2)⟩ := by
  refine ⟨_, rfl, ?_, ?_, ?_, ?_, ?_⟩
  · decide
  · decide
  · simp [ResAnimation.GetSprite, ResAnimation.GetCount, f2dSprite.SetZ, f2dSprite.SetColor]
    norm_num
  · simp [ResAnimation.GetSprite, ResAnimation.GetCount, f2dSprite.SetZ, f2dSprite.SetColor]
    norm_num
  · simp

end LuaSTGPlus
